import Mathlib

/-! Learning-platform backend (`server.js`): leveling, recommendations, access middleware.

A shallow embedding of the decision logic of `server.js`:

* JavaScript numbers are IEEE-754 binary64 values.  A finite double is represented by the
  rational it denotes, and every arithmetic operation of the source is the exact rational
  operation followed by rounding to the nearest double, ties to even (`toDouble`).
  Integer-valued numbers (row counts, the user level) are kept as exact integers: below
  `2 ^ 53` that is what binary64 holds.
* The relational store is a record of tables (lists of rows); the SQL text of each handler
  is transcribed operator by operator (`LEFT JOIN`, `WHERE`, `ORDER BY`, `LIMIT`,
  `AVG`, `COUNT(*)`, `COUNT(DISTINCT ·)`).  Primary and foreign key columns are not
  nullable; SQL numbers are exact rationals, so `AVG` is the exact quotient.
* Library calls (`jwt.verify`, `jwt.sign`, `bcrypt.compare`) are parameters.
-/

namespace ITS

/-! ## JavaScript numbers -/

/-- Nearest integer to `x`, a tie going to the even neighbour. -/
def roundHalfEven (x : ℚ) : ℤ :=
  let f := ⌊x⌋
  let r := x - f
  if r < 1 / 2 then f
  else if 1 / 2 < r then f + 1
  else if f % 2 = 0 then f else f + 1

/-- Number of binary digits of `n`, computed with `fuel` halvings available. -/
def bitLength : ℕ → ℕ → ℕ
  | 0, _ => 0
  | fuel + 1, n => if n = 0 then 0 else bitLength fuel (n / 2) + 1

/-- Binary exponent of a non-zero rational: the `e` with `2 ^ e ≤ |q| < 2 ^ (e + 1)`. -/
def binExponent (q : ℚ) : ℤ :=
  let e0 : ℤ := (bitLength q.num.natAbs q.num.natAbs : ℤ) - (bitLength q.den q.den : ℤ)
  if (2 : ℚ) ^ e0 ≤ |q| then e0 else e0 - 1

/-- The binary64 value nearest to `q` (53 significant bits, ties to even).  The exponent
range is not bounded: the values the handlers compute stay far inside the normal range. -/
def toDouble (q : ℚ) : ℚ :=
  if q = 0 then 0
  else
    let u : ℚ := (2 : ℚ) ^ (binExponent q - 52)
    (roundHalfEven (q / u) : ℚ) * u

/-- JavaScript `a * b` on numbers. -/
def jsMul (a b : ℚ) : ℚ := toDouble (a * b)

/-- JavaScript `a + b` on numbers. -/
def jsAdd (a b : ℚ) : ℚ := toDouble (a + b)

/-- The literal `0.4` of the source. -/
def lit04 : ℚ := toDouble (2 / 5)

/-- The literal `0.3` of the source. -/
def lit03 : ℚ := toDouble (3 / 10)

/-- Numeric value of the `avg_quiz_score` column as the multiplication sees it: SQL `NULL`
arrives as `null` and converts to `0`; a decimal converts to the nearest double. -/
def toNumber : Option ℚ → ℚ
  | none => 0
  | some q => toDouble q

/-! ## Leveling function -/

/-- The single row returned by the aggregation query of `GET /recommendations`. -/
structure StatsRow where
  avg_quiz_score : Option ℚ
  completed_lessons : ℕ
  completed_scenarios : ℕ
  deriving DecidableEq, Repr

/-- The argument of `Math.floor` in `calculateUserLevel`:
`avg_quiz_score * 0.4 + completed_lessons * 0.3 + completed_scenarios * 0.3`,
evaluated left to right in binary64. -/
def weightedScore (progress : StatsRow) : ℚ :=
  jsAdd
    (jsAdd (jsMul (toNumber progress.avg_quiz_score) lit04)
      (jsMul (progress.completed_lessons : ℚ) lit03))
    (jsMul (progress.completed_scenarios : ℚ) lit03)

/-- Source: `calculateUserLevel(progress)`. -/
def calculateUserLevel (progress : StatsRow) : ℤ :=
  ⌊weightedScore progress⌋

/-- The weighted sum `0.4 * avg + 0.3 * lessons + 0.3 * scenarios` in exact arithmetic,
a null average read as `0`. -/
def exactWeightedScore (progress : StatsRow) : ℚ :=
  (4 * progress.avg_quiz_score.getD 0 + 3 * (progress.completed_lessons : ℚ)
    + 3 * (progress.completed_scenarios : ℚ)) / 10

/-- The level as the specification words it: the floor of the exact weighted sum. -/
def exactLevel (progress : StatsRow) : ℤ :=
  ⌊exactWeightedScore progress⌋

/-! ## Relational store -/

/-- Row of `users` (the columns the handlers read). -/
structure User where
  id : ℕ
  username : String
  password : String
  isAdmin : Bool
  created_at : ℕ
  deriving DecidableEq, Repr

/-- Row of `lessons`.  `difficulty` is nullable: the migration script inserts lessons
without a difficulty. -/
structure Lesson where
  id : ℕ
  title : String
  difficulty : Option ℤ
  deriving DecidableEq, Repr

/-- Row of `scenarios`. -/
structure Scenario where
  id : ℕ
  title : String
  difficulty : Option ℤ
  deriving DecidableEq, Repr

/-- Row of `user_lesson_progress`. -/
structure LessonProgress where
  id : ℕ
  user_id : ℕ
  lesson_id : ℕ
  completed : ℤ
  deriving DecidableEq, Repr

/-- Row of `user_progress` (one row per `POST /user-progress`). -/
structure ScenarioProgress where
  id : ℕ
  user_id : ℕ
  scenario_id : ℕ
  choice_id : ℕ
  outcome : String
  deriving DecidableEq, Repr

/-- Row of `user_quiz_scores`. -/
structure QuizScore where
  id : ℕ
  user_id : ℕ
  score : ℚ
  deriving DecidableEq, Repr

/-- The persisted state the handlers query. -/
structure Store where
  users : List User
  lessons : List Lesson
  scenarios : List Scenario
  user_lesson_progress : List LessonProgress
  user_progress : List ScenarioProgress
  user_quiz_scores : List QuizScore

/-! ## SQL operators -/

/-- What a `LEFT JOIN` pairs a left row with: the matching right rows, or `NULL` once when
there is none. -/
def nullPad {β : Type} (found : List β) : List (Option β) :=
  match found with
  | [] => [none]
  | b :: bs => (b :: bs).map some

/-- `rows LEFT JOIN table ON onCond`: each left row paired with every matching right row, or
once with `NULL` when no right row matches. -/
def leftJoin {α β : Type} (rows : List α) (table : List β) (onCond : α → β → Bool) :
    List (α × Option β) :=
  rows.flatMap fun a => (nullPad (table.filter (onCond a))).map fun o => (a, o)

/-- `AVG(e)`: the mean of the non-`NULL` values, `NULL` when there is none. -/
def sqlAvg (vals : List (Option ℚ)) : Option ℚ :=
  let xs := vals.reduceOption
  if xs.isEmpty then none else some (xs.sum / xs.length)

/-- `COUNT(DISTINCT e)`: the number of distinct non-`NULL` values. -/
def countDistinct (vals : List (Option ℕ)) : ℕ :=
  vals.reduceOption.dedup.length

/-- `e <= ?` in a `WHERE` clause: a `NULL` operand makes the row fail the test. -/
def sqlLe : Option ℤ → ℤ → Bool
  | none, _ => false
  | some d, m => decide (d ≤ m)

/-- Row order of `ORDER BY e DESC`: larger first, `NULL` last. -/
def descOrder : Option ℤ → Option ℤ → Bool
  | _, none => true
  | none, some _ => false
  | some a, some b => decide (b ≤ a)

/-- `ORDER BY key DESC`. -/
def orderByDesc {α : Type} (key : α → Option ℤ) (rows : List α) : List α :=
  rows.insertionSort fun a b => descOrder (key a) (key b) = true

/-! ## `GET /recommendations` -/

/-- Row of the three-way join of the aggregation query. -/
abbrev StatsJoinRow : Type :=
  ((User × Option QuizScore) × Option LessonProgress) × Option ScenarioProgress

/-- The `FROM` clause of the aggregation query:
`users u LEFT JOIN user_quiz_scores uqs ON u.id = uqs.user_id
 LEFT JOIN user_lesson_progress ulp ON u.id = ulp.user_id AND ulp.completed = 1
 LEFT JOIN user_progress up ON u.id = up.user_id`. -/
def statsJoin (s : Store) : List StatsJoinRow :=
  leftJoin
    (leftJoin
      (leftJoin s.users s.user_quiz_scores fun u uqs => decide (u.id = uqs.user_id))
      s.user_lesson_progress
      fun r ulp => decide (r.1.id = ulp.user_id) && decide (ulp.completed = 1))
    s.user_progress fun r up => decide (r.1.1.id = up.user_id)

/-- The aggregation query of `GET /recommendations`:
`SELECT AVG(uqs.score), COUNT(DISTINCT ulp.lesson_id), COUNT(DISTINCT up.scenario_id)
 FROM … WHERE u.id = ?`.  Without `GROUP BY` it always returns exactly one row. -/
def statsQuery (s : Store) (userId : ℕ) : StatsRow :=
  let rows := (statsJoin s).filter fun r => decide (r.1.1.1.id = userId)
  { avg_quiz_score := sqlAvg (rows.map fun r => r.1.1.2.map QuizScore.score)
    completed_lessons := countDistinct (rows.map fun r => r.1.2.map LessonProgress.lesson_id)
    completed_scenarios := countDistinct (rows.map fun r => r.2.map ScenarioProgress.scenario_id) }

/-- The shape shared by the two content queries:
`SELECT c.* FROM content c LEFT JOIN progress p ON onCond c p
 WHERE p.id IS NULL AND c.difficulty <= ? ORDER BY c.difficulty DESC LIMIT 3`. -/
def recommendQuery {α β : Type} (content : List α) (progress : List β)
    (onCond : α → β → Bool) (pid : β → ℕ) (difficulty : α → Option ℤ) (maxDifficulty : ℤ) :
    List α :=
  let joined := leftJoin content progress onCond
  let kept := joined.filter fun r => (r.2.map pid).isNone && sqlLe (difficulty r.1) maxDifficulty
  ((orderByDesc (fun r => difficulty r.1) kept).take 3).map Prod.fst

/-- The lesson query: `… FROM lessons l LEFT JOIN user_lesson_progress ulp
ON l.id = ulp.lesson_id AND ulp.user_id = ? WHERE ulp.id IS NULL AND l.difficulty <= ? …`. -/
def recommendedLessonsQuery (s : Store) (userId : ℕ) (maxDifficulty : ℤ) : List Lesson :=
  recommendQuery s.lessons s.user_lesson_progress
    (fun l ulp => decide (l.id = ulp.lesson_id) && decide (ulp.user_id = userId))
    LessonProgress.id Lesson.difficulty maxDifficulty

/-- The scenario query: `… FROM scenarios s LEFT JOIN user_progress up
ON s.id = up.scenario_id AND up.user_id = ? WHERE up.id IS NULL AND s.difficulty <= ? …`. -/
def recommendedScenariosQuery (s : Store) (userId : ℕ) (maxDifficulty : ℤ) : List Scenario :=
  recommendQuery s.scenarios s.user_progress
    (fun sc up => decide (sc.id = up.scenario_id) && decide (up.user_id = userId))
    ScenarioProgress.id Scenario.difficulty maxDifficulty

/-- Body of the `GET /recommendations` response. -/
structure Recommendations where
  recommendedLessons : List Lesson
  recommendedScenarios : List Scenario
  deriving DecidableEq, Repr

/-- The level the handler derives for `req.user.id`. -/
def userLevel (s : Store) (userId : ℕ) : ℤ :=
  calculateUserLevel (statsQuery s userId)

/-- Handler of `GET /recommendations` for the authenticated `req.user.id`, on the path where
every query succeeds (a failing query leads to the 500 response of the `catch`).  The bind
parameter `userLevel + 1` is the integer successor of the level. -/
def getRecommendations (s : Store) (userId : ℕ) : Recommendations :=
  { recommendedLessons := recommendedLessonsQuery s userId (userLevel s userId + 1)
    recommendedScenarios := recommendedScenariosQuery s userId (userLevel s userId + 1) }

/-- The user has a `user_lesson_progress` row for this lesson. -/
def hasLessonRecord (s : Store) (userId : ℕ) (l : Lesson) : Prop :=
  ∃ r ∈ s.user_lesson_progress, r.lesson_id = l.id ∧ r.user_id = userId

/-- The user has a `user_progress` row for this scenario. -/
def hasScenarioRecord (s : Store) (userId : ℕ) (sc : Scenario) : Prop :=
  ∃ r ∈ s.user_progress, r.scenario_id = sc.id ∧ r.user_id = userId

/-- A difficulty value is non-`NULL` and at most `bound`. -/
def difficultyAtMost (d : Option ℤ) (bound : ℤ) : Prop :=
  ∃ v : ℤ, d = some v ∧ v ≤ bound

/-- A lesson the selector may return: in the table, without a progress row of the user,
and of difficulty at most `userLevel + 1`. -/
def eligibleLesson (s : Store) (userId : ℕ) (l : Lesson) : Prop :=
  l ∈ s.lessons ∧ ¬ hasLessonRecord s userId l ∧
    difficultyAtMost l.difficulty (userLevel s userId + 1)

/-- A scenario the selector may return. -/
def eligibleScenario (s : Store) (userId : ℕ) (sc : Scenario) : Prop :=
  sc ∈ s.scenarios ∧ ¬ hasScenarioRecord s userId sc ∧
    difficultyAtMost sc.difficulty (userLevel s userId + 1)

/-- Both difficulties are set and the first is at least the second. -/
def difficultyGe (a b : Option ℤ) : Prop :=
  ∃ x y : ℤ, a = some x ∧ b = some y ∧ y ≤ x

/-- Non-increasing in difficulty along the list. -/
def difficultyDescending {α : Type} (difficulty : α → Option ℤ) (l : List α) : Prop :=
  l.Pairwise fun a b => difficultyGe (difficulty a) (difficulty b)

/-! ## Access middleware -/

/-- The payload `jwt.verify` hands to its callback: the claims signed at login plus the
issue and expiry times the library adds. -/
structure Claims where
  id : ℕ
  username : String
  isAdmin : Bool
  iat : ℕ
  exp : ℕ
  deriving DecidableEq, Repr

/-- The parts of an Express request the middleware reads or writes, and a body it must
leave alone. -/
structure Request where
  authorization : Option String
  user : Option Claims
  body : String
  deriving DecidableEq, Repr

/-- What the middleware does to the outside: answer with a bare status, or call `next`. -/
inductive Effect where
  | sendStatus (code : ℕ)
  | next
  deriving DecidableEq, Repr

/-- JavaScript `str.split(" ")` on the characters of a string: cut at every space, empty
segments kept. -/
def splitOnSpace : List Char → List (List Char)
  | [] => [[]]
  | c :: cs =>
    if c = ' ' then [] :: splitOnSpace cs
    else
      match splitOnSpace cs with
      | [] => [[c]]
      | seg :: rest => (c :: seg) :: rest

/-- Source: `authHeader && authHeader.split(" ")[1]`.  `none` is `undefined`.  A falsy
header is returned as it is: `undefined` when absent, the empty string when empty. -/
def bearerToken (authHeader : Option String) : Option String :=
  match authHeader with
  | none => none
  | some h => if h = "" then some h else ((splitOnSpace h.toList)[1]?).map String.mk

/-- Source: `authenticateToken(req, res, next)`.  `verify token` stands for
`jwt.verify(token, process.env.JWT_SECRET, callback)` at the time of the request: the
library calls the callback once, with an error or with the decoded payload.  The result is
the request as the middleware leaves it and what it did. -/
def authenticateToken (verify : String → Except String Claims) (req : Request) :
    Request × List Effect :=
  match bearerToken req.authorization with
  | none => (req, [Effect.sendStatus 401])
  | some token =>
    match verify token with
    | Except.error _ => (req, [Effect.sendStatus 403])
    | Except.ok user => ({ req with user := some user }, [Effect.next])

/-- A `jwt.verify` that rejects every token, as the library does for the empty string
(`jwt must be provided`). -/
def verifyNone : String → Except String Claims :=
  fun _ => Except.error "jwt must be provided"

/-- A `jwt.verify` that accepts exactly the token `good`. -/
def verifyOnly (good : String) (claims : Claims) : String → Except String Claims :=
  fun token => if token = good then Except.ok claims else Except.error "invalid token"

/-! ## `POST /login` -/

/-- The object signed into the token and echoed as `user` in the login response. -/
structure TokenPayload where
  id : ℕ
  username : String
  isAdmin : Bool
  deriving DecidableEq, Repr

/-- The destructured `req.body`; `none` is `undefined`. -/
structure LoginBody where
  username : Option String
  password : Option String
  deriving DecidableEq, Repr

/-- JSON bodies of the login responses. -/
inductive LoginJson where
  | success (token : String) (user : TokenPayload)
  | error (message : String)
  deriving DecidableEq, Repr

/-- Status and body of a response. -/
structure LoginResponse where
  status : ℕ
  body : LoginJson
  deriving DecidableEq, Repr

/-- Handler of `POST /login`.  `compare` is `bcrypt.compare`, `sign` is
`jwt.sign(·, process.env.JWT_SECRET, { expiresIn: "1h" })`.  An `undefined` bind parameter
makes `pool.execute` throw and an `undefined` password makes `bcrypt.compare` throw; both
end in the `catch` branch. -/
def postLogin (compare : String → String → Bool) (sign : TokenPayload → String)
    (s : Store) (body : LoginBody) : LoginResponse :=
  match body.username with
  | none => ⟨500, LoginJson.error "Database error"⟩
  | some username =>
    match s.users.filter fun u => decide (u.username = username) with
    | user :: _ =>
      match body.password with
      | none => ⟨500, LoginJson.error "Database error"⟩
      | some password =>
        if compare password user.password then
          ⟨200, LoginJson.success (sign ⟨user.id, user.username, user.isAdmin⟩)
            ⟨user.id, user.username, user.isAdmin⟩⟩
        else ⟨401, LoginJson.error "Invalid credentials"⟩
    | [] => ⟨401, LoginJson.error "User not found"⟩

/-- The users table has a row with this username. -/
def usernameExists (s : Store) (username : String) : Prop :=
  ∃ u ∈ s.users, u.username = username

/-- The first row of `SELECT * FROM users WHERE username = ?`. -/
def firstUser (s : Store) (username : String) : Option User :=
  (s.users.filter fun u => decide (u.username = username)).head?

/-- The two failure bodies have the same shape: an object with the single key `error`. -/
def LoginJson.isError : LoginJson → Bool
  | LoginJson.error _ => true
  | LoginJson.success _ _ => false

/-- A `bcrypt.compare` stand-in for concrete runs: the stored hash is the password. -/
def comparePlain (password hash : String) : Bool :=
  decide (password = hash)

/-- A `jwt.sign` stand-in for concrete runs. -/
def signPlain (p : TokenPayload) : String :=
  p.username

/-! ## Progress aggregator, as the specification words it -/

/-- The scores of the user's `user_quiz_scores` rows. -/
def quizScoresOf (s : Store) (userId : ℕ) : List ℚ :=
  (s.user_quiz_scores.filter fun q => decide (q.user_id = userId)).map QuizScore.score

/-- The lesson ids of the user's `user_lesson_progress` rows with `completed = 1`. -/
def completedLessonIds (s : Store) (userId : ℕ) : List ℕ :=
  (s.user_lesson_progress.filter fun r =>
    decide (r.user_id = userId) && decide (r.completed = 1)).map LessonProgress.lesson_id

/-- The scenario ids of the user's `user_progress` rows. -/
def attemptedScenarioIds (s : Store) (userId : ℕ) : List ℕ :=
  (s.user_progress.filter fun r => decide (r.user_id = userId)).map ScenarioProgress.scenario_id

/-- Arithmetic mean of a list of scores; `none` (null) for the empty list. -/
def meanScore (scores : List ℚ) : Option ℚ :=
  if scores = [] then none else some (scores.sum / scores.length)

/-- `AggregatedStats` in the specification's words: the mean quiz score (null without quiz
records), the number of distinct completed lessons, the number of distinct scenarios with
a progress record. -/
def aggregatedStats (s : Store) (userId : ℕ) : StatsRow :=
  { avg_quiz_score := meanScore (quizScoresOf s userId)
    completed_lessons := (completedLessonIds s userId).toFinset.card
    completed_scenarios := (attemptedScenarioIds s userId).toFinset.card }

/-- The `users` table has a row with this id. -/
def userExists (s : Store) (userId : ℕ) : Prop :=
  ∃ u ∈ s.users, u.id = userId

/-- The user has no quiz score, no lesson progress row and no scenario progress row. -/
def hasNoRecords (s : Store) (userId : ℕ) : Prop :=
  (∀ q ∈ s.user_quiz_scores, q.user_id ≠ userId) ∧
  (∀ r ∈ s.user_lesson_progress, r.user_id ≠ userId) ∧
  (∀ r ∈ s.user_progress, r.user_id ≠ userId)

/-- Modelled from the spec: the schema is not among the sources; the data model makes every
progress record and every quiz score many-to-one with a User, so each `user_id` in the
three record tables is the id of a row of `users`. -/
def recordsReferenceUsers (s : Store) : Prop :=
  (∀ q ∈ s.user_quiz_scores, userExists s q.user_id) ∧
  (∀ r ∈ s.user_lesson_progress, userExists s r.user_id) ∧
  (∀ r ∈ s.user_progress, userExists s r.user_id)

/-! ## `GET /user-profile` -/

/-- The `progress` object of the profile response. -/
structure ProfileProgress where
  completedLessons : ℕ
  completedScenarios : ℕ
  averageQuizScore : ℚ
  deriving DecidableEq, Repr

/-- The columns `id, username, created_at` of the profile's user row. -/
structure ProfileUser where
  id : ℕ
  username : String
  created_at : ℕ
  deriving DecidableEq, Repr

/-- Body of the `GET /user-profile` response; `user` is `undefined` when no row matches. -/
structure UserProfile where
  user : Option ProfileUser
  progress : ProfileProgress
  deriving DecidableEq, Repr

/-- Handler of `GET /user-profile` for the authenticated `req.user.id`, on the path where
every query succeeds:
`SELECT COUNT(*) FROM user_lesson_progress WHERE user_id = ? AND completed = 1`,
`SELECT COUNT(*) FROM user_progress WHERE user_id = ?`,
`SELECT AVG(score) FROM user_quiz_scores WHERE user_id = ?`, the last one read through
`average_score || 0`. -/
def getUserProfile (s : Store) (userId : ℕ) : UserProfile :=
  let user := (s.users.filter fun u => decide (u.id = userId)).map
    fun u => (⟨u.id, u.username, u.created_at⟩ : ProfileUser)
  let completedLessons := (s.user_lesson_progress.filter fun r =>
    decide (r.user_id = userId) && decide (r.completed = 1)).length
  let completedScenarios := (s.user_progress.filter fun r => decide (r.user_id = userId)).length
  let quizScores := sqlAvg ((s.user_quiz_scores.filter fun q =>
    decide (q.user_id = userId)).map fun q => some q.score)
  { user := user.head?
    progress :=
      { completedLessons := completedLessons
        completedScenarios := completedScenarios
        averageQuizScore := quizScores.getD 0 } }

/-! ## Sample stores -/

/-- A store in which user `1` has no quiz score and no progress row. -/
def coldStartStore : Store where
  users := [⟨1, "ana", "hash", false, 0⟩]
  lessons := [⟨1, "intro", some 0⟩, ⟨2, "basics", some 1⟩, ⟨3, "advanced", some 2⟩,
    ⟨4, "draft", none⟩]
  scenarios := [⟨1, "drill", some 1⟩, ⟨2, "storm", some 3⟩]
  user_lesson_progress := []
  user_progress := []
  user_quiz_scores := []

/-- A store in which user `1` has average quiz score `100`, five completed lessons and five
completed scenarios, and content of difficulty `10`, `44`, `45` is still open. -/
def advancedStore : Store where
  users := [⟨1, "ana", "hash", false, 0⟩, ⟨2, "ben", "hash", true, 0⟩]
  lessons := [⟨1, "l1", some 1⟩, ⟨2, "l2", some 1⟩, ⟨3, "l3", some 2⟩,
    ⟨4, "l4", some 2⟩, ⟨5, "l5", some 3⟩, ⟨6, "l6", some 10⟩, ⟨7, "l7", some 44⟩,
    ⟨8, "l8", some 45⟩]
  scenarios := [⟨1, "s1", some 1⟩, ⟨2, "s2", some 1⟩, ⟨3, "s3", some 2⟩,
    ⟨4, "s4", some 2⟩, ⟨5, "s5", some 3⟩, ⟨6, "s6", some 44⟩, ⟨7, "s7", some 45⟩]
  user_lesson_progress := [⟨1, 1, 1, 1⟩, ⟨2, 1, 2, 1⟩, ⟨3, 1, 3, 1⟩, ⟨4, 1, 4, 1⟩,
    ⟨5, 1, 5, 1⟩, ⟨6, 2, 6, 1⟩]
  user_progress := [⟨1, 1, 1, 1, "won"⟩, ⟨2, 1, 2, 1, "won"⟩, ⟨3, 1, 3, 2, "lost"⟩,
    ⟨4, 1, 4, 1, "won"⟩, ⟨5, 1, 5, 1, "won"⟩]
  user_quiz_scores := [⟨1, 1, 100⟩, ⟨2, 1, 100⟩, ⟨3, 2, 40⟩]

/-- A store in which user `1` has a progress row for every lesson and every scenario. -/
def allDoneStore : Store where
  users := [⟨1, "ana", "hash", false, 0⟩]
  lessons := [⟨1, "intro", some 0⟩, ⟨2, "basics", some 1⟩]
  scenarios := [⟨1, "drill", some 1⟩]
  user_lesson_progress := [⟨1, 1, 1, 1⟩, ⟨2, 1, 2, 0⟩]
  user_progress := [⟨1, 1, 1, 1, "won"⟩]
  user_quiz_scores := []

/-- A store in which user `1` has two `user_progress` rows for the same scenario `7`, as two
`POST /user-progress` requests for that scenario leave it. -/
def replayStore : Store where
  users := [⟨1, "ana", "hash", false, 0⟩]
  lessons := [⟨1, "intro", some 0⟩]
  scenarios := [⟨7, "drill", some 1⟩]
  user_lesson_progress := [⟨1, 1, 1, 1⟩]
  user_progress := [⟨1, 1, 7, 2, "lost"⟩, ⟨2, 1, 7, 1, "won"⟩]
  user_quiz_scores := [⟨1, 1, 80⟩, ⟨2, 1, 90⟩]

/-- The user has a `user_lesson_progress` row with `completed = 1` for this lesson. -/
def lessonCompleted (s : Store) (userId : ℕ) (l : Lesson) : Prop :=
  ∃ r ∈ s.user_lesson_progress, r.lesson_id = l.id ∧ r.user_id = userId ∧ r.completed = 1

/-- The store without the `user_lesson_progress` rows whose `completed` is not `1`. -/
def onlyCompleted (s : Store) : Store :=
  { s with
    user_lesson_progress := s.user_lesson_progress.filter fun r => decide (r.completed = 1) }

/-- A store in which user `1` has a `user_lesson_progress` row with `completed = 0` for
lesson `2` and no other record. -/
def startedStore : Store where
  users := [⟨1, "ana", "hash", false, 0⟩]
  lessons := [⟨1, "intro", some 0⟩, ⟨2, "basics", some 1⟩]
  scenarios := []
  user_lesson_progress := [⟨1, 1, 2, 0⟩]
  user_progress := []
  user_quiz_scores := []

/-- A store in which the id `99` carries a quiz score, a completed lesson and a scenario
record but has no row in `users`, as `POST /user-progress` with a `userId` of the request
body can leave it. -/
def orphanStore : Store where
  users := [⟨1, "ana", "hash", false, 0⟩]
  lessons := [⟨1, "intro", some 0⟩]
  scenarios := [⟨1, "drill", some 1⟩]
  user_lesson_progress := [⟨1, 99, 1, 1⟩]
  user_progress := [⟨1, 99, 1, 1, "won"⟩]
  user_quiz_scores := [⟨1, 99, 100⟩]

/-! ### JavaScript numbers -/

theorem bitLength_zero (fuel : ℕ) : bitLength fuel 0 = 0 := by
  cases fuel <;> simp [bitLength]

theorem bitLength_bounds (fuel : ℕ) : ∀ n : ℕ, n ≤ fuel →
    n < 2 ^ bitLength fuel n ∧ (n ≠ 0 → 2 ^ bitLength fuel n ≤ 2 * n) := by
  induction fuel with
  | zero =>
    intro n hn
    have h0 : n = 0 := by omega
    subst h0
    simp [bitLength]
  | succ k ih =>
    intro n hn
    by_cases h0 : n = 0
    · subst h0
      simp [bitLength]
    · have hhalf : n / 2 ≤ k := by omega
      obtain ⟨hlt, hle⟩ := ih (n / 2) hhalf
      have hstep : bitLength (k + 1) n = bitLength k (n / 2) + 1 := by
        simp [bitLength, h0]
      rw [hstep, pow_succ]
      refine ⟨by omega, fun _ => ?_⟩
      by_cases h2 : n / 2 = 0
      · rw [h2, bitLength_zero]
        simp
        omega
      · have := hle h2
        omega

theorem abs_eq_natAbs_div_den (q : ℚ) : |q| = (q.num.natAbs : ℚ) / (q.den : ℚ) := by
  have hd : (0 : ℚ) < (q.den : ℚ) := by exact_mod_cast q.den_pos
  conv_lhs => rw [← Rat.num_div_den q]
  rw [abs_div, abs_of_pos hd, Nat.cast_natAbs, Int.cast_abs]

theorem binExponent_spec (q : ℚ) (hq : q ≠ 0) :
    (2 : ℚ) ^ binExponent q ≤ |q| ∧ |q| < (2 : ℚ) ^ (binExponent q + 1) := by
  have hd : (0 : ℚ) < (q.den : ℚ) := by exact_mod_cast q.den_pos
  have hn0 : q.num.natAbs ≠ 0 := by
    simpa [Int.natAbs_eq_zero] using hq
  have hn : (0 : ℚ) < (q.num.natAbs : ℚ) := by exact_mod_cast Nat.pos_of_ne_zero hn0
  obtain ⟨hn1, hn2⟩ := bitLength_bounds q.num.natAbs q.num.natAbs le_rfl
  obtain ⟨hd1, hd2⟩ := bitLength_bounds q.den q.den le_rfl
  have hn2 := hn2 hn0
  have hd2 := hd2 q.den_nz
  have hn1q : (q.num.natAbs : ℚ) < 2 ^ bitLength q.num.natAbs q.num.natAbs := by
    exact_mod_cast hn1
  have hn2q : (2 : ℚ) ^ bitLength q.num.natAbs q.num.natAbs ≤ 2 * q.num.natAbs := by
    exact_mod_cast hn2
  have hd1q : (q.den : ℚ) < 2 ^ bitLength q.den q.den := by exact_mod_cast hd1
  have hd2q : (2 : ℚ) ^ bitLength q.den q.den ≤ 2 * q.den := by exact_mod_cast hd2
  have hpn : (0 : ℚ) < 2 ^ bitLength q.num.natAbs q.num.natAbs := by positivity
  have hpd : (0 : ℚ) < 2 ^ bitLength q.den q.den := by positivity
  have he0 : (2 : ℚ) ^
      ((bitLength q.num.natAbs q.num.natAbs : ℤ) - (bitLength q.den q.den : ℤ))
      = 2 ^ bitLength q.num.natAbs q.num.natAbs / 2 ^ bitLength q.den q.den := by
    rw [zpow_sub₀ (by norm_num), zpow_natCast, zpow_natCast]
  unfold binExponent
  simp only
  split_ifs with hc
  · refine ⟨hc, ?_⟩
    rw [zpow_add_one₀ (by norm_num), he0, abs_eq_natAbs_div_den, div_mul_eq_mul_div,
      div_lt_div_iff₀ hd hpd]
    nlinarith
  · refine ⟨?_, ?_⟩
    · rw [zpow_sub_one₀ (by norm_num), he0, abs_eq_natAbs_div_den, ← div_eq_mul_inv, div_div,
        div_le_div_iff₀ (by positivity) hd]
      nlinarith
    · rw [sub_add_cancel]
      exact lt_of_not_le hc

theorem roundHalfEven_err (x : ℚ) : |(roundHalfEven x : ℚ) - x| ≤ 1 / 2 := by
  have h1 := Int.floor_le x
  have h2 := Int.lt_floor_add_one x
  unfold roundHalfEven
  simp only
  rw [abs_le]
  split_ifs <;> push_cast <;> constructor <;> linarith

theorem toDouble_err (q : ℚ) : |toDouble q - q| ≤ |q| / 2 ^ 53 := by
  unfold toDouble
  split_ifs with hq
  · simp [hq]
  · simp only
    obtain ⟨hlo, -⟩ := binExponent_spec q hq
    have hu : (0 : ℚ) < 2 ^ (binExponent q - 52) := by positivity
    have hr := roundHalfEven_err (q / 2 ^ (binExponent q - 52))
    have hfac : (roundHalfEven (q / 2 ^ (binExponent q - 52)) : ℚ) * 2 ^ (binExponent q - 52) - q
        = ((roundHalfEven (q / 2 ^ (binExponent q - 52)) : ℚ) - q / 2 ^ (binExponent q - 52))
          * 2 ^ (binExponent q - 52) := by
      field_simp
    rw [hfac, abs_mul, abs_of_pos hu]
    have hsplit : (2 : ℚ) ^ (binExponent q - 52) = 2 ^ binExponent q / 2 ^ 52 := by
      rw [zpow_sub₀ (by norm_num)]
      norm_num
    have hpos : (0 : ℚ) < 2 ^ binExponent q := by positivity
    calc |(roundHalfEven (q / 2 ^ (binExponent q - 52)) : ℚ) - q / 2 ^ (binExponent q - 52)|
          * 2 ^ (binExponent q - 52)
        ≤ 1 / 2 * 2 ^ (binExponent q - 52) := by
          exact mul_le_mul_of_nonneg_right hr hu.le
      _ = 2 ^ binExponent q / 2 ^ 53 := by rw [hsplit]; ring
      _ ≤ |q| / 2 ^ 53 := by
          apply div_le_div_of_nonneg_right hlo (by positivity)

theorem toDouble_zero : toDouble 0 = 0 := by simp [toDouble]

theorem toDouble_close {q M : ℚ} (h : |q| ≤ M) : |toDouble q - q| ≤ M / 2 ^ 53 :=
  (toDouble_err q).trans (div_le_div_of_nonneg_right h (by positivity))

theorem toDouble_half_le {q : ℚ} (h : 0 ≤ q) : q / 2 ≤ toDouble q := by
  have h1 := toDouble_err q
  rw [abs_of_nonneg h, abs_le] at h1
  have : q / 2 ^ 53 ≤ q / 2 := by
    apply div_le_div_of_nonneg_left h (by norm_num) (by norm_num)
  linarith [h1.1]

theorem roundHalfEven_intCast (m : ℤ) : roundHalfEven (m : ℚ) = m := by
  unfold roundHalfEven
  simp

theorem toDouble_of_int_quotient (q : ℚ) (m : ℤ)
    (hm : q / 2 ^ (binExponent q - 52) = m) : toDouble q = q := by
  unfold toDouble
  split_ifs with hq
  · exact hq.symm
  · simp only
    have hu : (2 : ℚ) ^ (binExponent q - 52) ≠ 0 := by positivity
    rw [hm, roundHalfEven_intCast, ← hm]
    field_simp

/-- Integers of magnitude at most `2 ^ 53` are binary64 values. -/
theorem toDouble_intCast (n : ℤ) (h : |n| ≤ 2 ^ 53) : toDouble (n : ℚ) = n := by
  by_cases hn : n = 0
  · subst hn
    simp [toDouble_zero]
  have hq : (n : ℚ) ≠ 0 := by exact_mod_cast hn
  obtain ⟨hlo, hhi⟩ := binExponent_spec (n : ℚ) hq
  have habs : |(n : ℚ)| ≤ 2 ^ 53 := by exact_mod_cast h
  have he : binExponent (n : ℚ) ≤ 53 := by
    by_contra hc
    have h54 : (54 : ℤ) ≤ binExponent (n : ℚ) := by omega
    have : (2 : ℚ) ^ (54 : ℤ) ≤ 2 ^ binExponent (n : ℚ) :=
      zpow_le_zpow_right₀ (by norm_num) h54
    have h2 : (2 : ℚ) ^ (54 : ℤ) = 2 ^ 54 := by norm_num
    rw [h2] at this
    linarith
  rcases lt_or_ge (binExponent (n : ℚ)) 53 with hlt | hge
  · obtain ⟨k, hk⟩ : ∃ k : ℕ, binExponent (n : ℚ) - 52 = -(k : ℤ) :=
      ⟨(52 - binExponent (n : ℚ)).toNat, by omega⟩
    apply toDouble_of_int_quotient (n : ℚ) (n * 2 ^ k)
    rw [hk, zpow_neg, zpow_natCast, div_inv_eq_mul]
    push_cast
    rfl
  · have he53 : binExponent (n : ℚ) = 53 := le_antisymm he hge
    rw [he53] at hlo
    have h2 : (2 : ℚ) ^ (53 : ℤ) = 2 ^ 53 := by norm_num
    rw [h2] at hlo
    have heq : |(n : ℚ)| = 2 ^ 53 := le_antisymm habs hlo
    have heqz : |n| = 2 ^ 53 := by exact_mod_cast heq
    rcases abs_eq (by norm_num : (0 : ℤ) ≤ 2 ^ 53) |>.mp heqz with hpos | hneg
    · apply toDouble_of_int_quotient (n : ℚ) (2 ^ 52)
      rw [he53, hpos]
      norm_num
    · apply toDouble_of_int_quotient (n : ℚ) (-2 ^ 52)
      rw [he53, hneg]
      norm_num

/-- `userLevel + 1` in binary64 is the integer successor for every level of magnitude
below `2 ^ 53`. -/
theorem jsAdd_level_one (level : ℤ) (h : |level| < 2 ^ 53) :
    jsAdd (level : ℚ) 1 = ((level + 1 : ℤ) : ℚ) := by
  unfold jsAdd
  have hb : |level + 1| ≤ 2 ^ 53 := by
    rw [abs_le] at *
    rw [abs_lt] at h
    constructor <;> omega
  have := toDouble_intCast (level + 1) hb
  push_cast at this ⊢
  exact this

/-- A row count below `2 ^ 53` reaches JavaScript unchanged. -/
theorem toDouble_natCast (n : ℕ) (h : n ≤ 2 ^ 53) : toDouble (n : ℚ) = n := by
  have := toDouble_intCast (n : ℤ) (by rw [abs_of_nonneg (by positivity)]; exact_mod_cast h)
  exact_mod_cast this

theorem lit04_eq : lit04 = 3602879701896397 / 2 ^ 53 := by decide!

theorem lit03_eq : lit03 = 5404319552844595 / 2 ^ 54 := by decide!

theorem toNumber_close (a : Option ℚ) (h : |a.getD 0| ≤ 2 ^ 30) :
    |toNumber a - a.getD 0| ≤ 2 ^ 30 / 2 ^ 53 := by
  cases a with
  | none => norm_num [toNumber]
  | some q => exact toDouble_close h

theorem weightedScore_close (p : StatsRow) (ha : |p.avg_quiz_score.getD 0| ≤ 2 ^ 30)
    (hl : p.completed_lessons ≤ 2 ^ 30) (hs : p.completed_scenarios ≤ 2 ^ 30) :
    |weightedScore p - exactWeightedScore p| ≤ 1 / 2 ^ 19 := by
  have hlq : (p.completed_lessons : ℚ) ≤ 2 ^ 30 := by exact_mod_cast hl
  have hsq : (p.completed_scenarios : ℚ) ≤ 2 ^ 30 := by exact_mod_cast hs
  have hl0 : (0 : ℚ) ≤ (p.completed_lessons : ℚ) := Nat.cast_nonneg _
  have hs0 : (0 : ℚ) ≤ (p.completed_scenarios : ℚ) := Nat.cast_nonneg _
  have hn := toNumber_close p.avg_quiz_score ha
  rw [abs_le] at ha hn
  have ht1 : |toNumber p.avg_quiz_score * lit04| ≤ 2 ^ 30 := by
    rw [lit04_eq, abs_le]
    constructor <;> linarith [ha.1, ha.2, hn.1, hn.2]
  have hp1 := toDouble_close ht1
  have ht2 : |(p.completed_lessons : ℚ) * lit03| ≤ 2 ^ 30 := by
    rw [lit03_eq, abs_le]
    constructor <;> linarith
  have hp2 := toDouble_close ht2
  have ht3 : |(p.completed_scenarios : ℚ) * lit03| ≤ 2 ^ 30 := by
    rw [lit03_eq, abs_le]
    constructor <;> linarith
  have hp3 := toDouble_close ht3
  rw [abs_le] at ht1 hp1 ht2 hp2 ht3 hp3
  have hs1 : |jsMul (toNumber p.avg_quiz_score) lit04 + jsMul (p.completed_lessons : ℚ) lit03|
      ≤ 2 ^ 32 := by
    unfold jsMul
    rw [abs_le]
    constructor <;> linarith [ht1.1, ht1.2, hp1.1, hp1.2, ht2.1, ht2.2, hp2.1, hp2.2]
  have hq1 := toDouble_close hs1
  have hs2 : |jsAdd (jsMul (toNumber p.avg_quiz_score) lit04)
        (jsMul (p.completed_lessons : ℚ) lit03)
      + jsMul (p.completed_scenarios : ℚ) lit03| ≤ 2 ^ 33 := by
    rw [abs_le] at hs1 hq1 ⊢
    unfold jsAdd
    unfold jsMul at hs1 hq1 ⊢
    constructor <;> linarith [hs1.1, hs1.2, hq1.1, hq1.2, ht3.1, ht3.2, hp3.1, hp3.2]
  have hq2 := toDouble_close hs2
  rw [abs_le] at hq1 hq2
  unfold weightedScore exactWeightedScore
  simp only [jsAdd, jsMul] at hq1 hq2 ⊢
  rw [lit04_eq] at hp1 hq1 hq2 ⊢
  rw [lit03_eq] at hp2 hp3 hq1 hq2 ⊢
  rw [abs_le]
  constructor <;> linarith [ha.1, ha.2, hn.1, hn.2, hp1.1, hp1.2, hp2.1, hp2.2, hp3.1, hp3.2,
    hq1.1, hq1.2, hq2.1, hq2.2]

theorem weightedScore_lessons_only (n : ℕ) :
    (n : ℚ) ≤ weightedScore ⟨none, 32 * n, 0⟩ := by
  have hc : (0 : ℚ) ≤ ((32 * n : ℕ) : ℚ) * lit03 := by
    rw [lit03_eq]
    exact mul_nonneg (Nat.cast_nonneg _) (by norm_num)
  have h1 := toDouble_half_le hc
  have h1p := le_trans (div_nonneg hc (by norm_num)) h1
  have h2 := toDouble_half_le h1p
  have h2p := le_trans (div_nonneg h1p (by norm_num)) h2
  have h3 := toDouble_half_le h2p
  have hw : weightedScore ⟨none, 32 * n, 0⟩
      = toDouble (toDouble (toDouble (((32 * n : ℕ) : ℚ) * lit03))) := by
    simp [weightedScore, toNumber, jsAdd, jsMul, toDouble_zero]
  rw [hw]
  rw [lit03_eq] at h1 h2 h3 ⊢
  push_cast at h1 h2 h3 ⊢
  linarith

/-- C1 (counterexample): with no quiz score, one completed lesson and nine completed
scenarios the exact weighted sum is `3`, but the binary64 evaluation of
`0 * 0.4 + 1 * 0.3 + 9 * 0.3` is just below `3`, so `calculateUserLevel` returns `2`. -/
theorem calculateUserLevel_ne_exactLevel :
    calculateUserLevel ⟨none, 1, 9⟩ = 2 ∧ exactLevel ⟨none, 1, 9⟩ = 3 ∧
      calculateUserLevel ⟨none, 1, 9⟩ ≠ exactLevel ⟨none, 1, 9⟩ := by
  decide!

/-- C1 (amended): `calculateUserLevel` returns the floor of the binary64 evaluation of
`avg * 0.4 + lessons * 0.3 + scenarios * 0.3` (null average read as `0`).  For inputs of
magnitude at most `2 ^ 30` that evaluation is within `2 ^ -19` of the exact weighted sum
`(4 * avg + 3 * lessons + 3 * scenarios) / 10`, so the level lies between the floors of the
exact sum minus and plus `2 ^ -19`, hence within one of the exact floor.  Nothing is
clamped: `(100, 5, 5)` gives `43`, `(-10, 0, 0)` gives `-4`, and every integer is reached
or exceeded by some level. -/
theorem calculateUserLevel_floor_of_double :
    (∀ p : StatsRow, |p.avg_quiz_score.getD 0| ≤ 2 ^ 30 → p.completed_lessons ≤ 2 ^ 30 →
        p.completed_scenarios ≤ 2 ^ 30 →
        calculateUserLevel p = ⌊weightedScore p⌋ ∧
        |weightedScore p - exactWeightedScore p| ≤ 1 / 2 ^ 19 ∧
        ⌊exactWeightedScore p - 1 / 2 ^ 19⌋ ≤ calculateUserLevel p ∧
        calculateUserLevel p ≤ ⌊exactWeightedScore p + 1 / 2 ^ 19⌋ ∧
        exactLevel p - 1 ≤ calculateUserLevel p ∧ calculateUserLevel p ≤ exactLevel p + 1) ∧
    calculateUserLevel ⟨some 100, 5, 5⟩ = 43 ∧
    calculateUserLevel ⟨some (-10), 0, 0⟩ = -4 ∧
    ∀ n : ℤ, ∃ p : StatsRow, n ≤ calculateUserLevel p := by
  refine ⟨?_, by decide!, by decide!, ?_⟩
  · intro p ha hl hs
    have hc := weightedScore_close p ha hl hs
    rw [abs_le] at hc
    have hlo : ⌊exactWeightedScore p - 1 / 2 ^ 19⌋ ≤ calculateUserLevel p :=
      Int.floor_le_floor (by linarith [hc.1])
    have hhi : calculateUserLevel p ≤ ⌊exactWeightedScore p + 1 / 2 ^ 19⌋ :=
      Int.floor_le_floor (by linarith [hc.2])
    refine ⟨rfl, abs_le.mpr hc, hlo, hhi, ?_, ?_⟩
    · have hfl : exactLevel p - 1 = ⌊exactWeightedScore p - 1⌋ := (Int.floor_sub_one _).symm
      rw [hfl]
      have hsmall : (1 : ℚ) / 2 ^ 19 ≤ 1 := by norm_num
      exact le_trans (Int.floor_le_floor (by linarith)) hlo
    · have hfl : exactLevel p + 1 = ⌊exactWeightedScore p + 1⌋ := (Int.floor_add_one _).symm
      rw [hfl]
      have hsmall : (1 : ℚ) / 2 ^ 19 ≤ 1 := by norm_num
      exact le_trans hhi (Int.floor_le_floor (by linarith))
  · intro n
    refine ⟨⟨none, 32 * n.toNat, 0⟩, ?_⟩
    unfold calculateUserLevel
    rw [Int.le_floor]
    have h := weightedScore_lessons_only n.toNat
    have h2 : (n : ℚ) ≤ ((n.toNat : ℕ) : ℚ) := by
      have : n ≤ (n.toNat : ℤ) := Int.self_le_toNat n
      exact_mod_cast this
    exact le_trans h2 h

/-- C1 (witness): the amended statement at the specification's example `(100, 5, 5)`. -/
theorem calculateUserLevel_floor_of_double_witness :
    |(StatsRow.mk (some 100) 5 5).avg_quiz_score.getD 0| ≤ 2 ^ 30 ∧
      ⌊exactWeightedScore ⟨some 100, 5, 5⟩ - 1 / 2 ^ 19⌋ ≤ calculateUserLevel ⟨some 100, 5, 5⟩ ∧
      calculateUserLevel ⟨some 100, 5, 5⟩ ≤ ⌊exactWeightedScore ⟨some 100, 5, 5⟩ + 1 / 2 ^ 19⌋ :=
  ⟨by norm_num,
    (calculateUserLevel_floor_of_double.1 ⟨some 100, 5, 5⟩ (by norm_num) (by norm_num)
      (by norm_num)).2.2.1,
    (calculateUserLevel_floor_of_double.1 ⟨some 100, 5, 5⟩ (by norm_num) (by norm_num)
      (by norm_num)).2.2.2.1⟩

/-! ### SQL operators -/

theorem mem_nullPad {β : Type} (found : List β) (o : Option β) :
    o ∈ nullPad found ↔ (o = none ∧ found = []) ∨ ∃ b ∈ found, o = some b := by
  cases found with
  | nil => simp [nullPad]
  | cons b bs =>
    simp only [nullPad, List.mem_map, reduceCtorEq, and_false, false_or]
    constructor
    · rintro ⟨x, hx, rfl⟩
      exact ⟨x, hx, rfl⟩
    · rintro ⟨x, hx, rfl⟩
      exact ⟨x, hx, rfl⟩

theorem nullPad_ne_nil {β : Type} (found : List β) : nullPad found ≠ [] := by
  cases found <;> simp [nullPad]

theorem mem_leftJoin {α β : Type} (rows : List α) (table : List β) (onCond : α → β → Bool)
    (a : α) (o : Option β) :
    (a, o) ∈ leftJoin rows table onCond ↔
      a ∈ rows ∧ ((o = none ∧ ∀ b ∈ table, onCond a b = false) ∨
        ∃ b ∈ table, onCond a b = true ∧ o = some b) := by
  unfold leftJoin
  simp only [List.mem_flatMap, List.mem_map, Prod.mk.injEq, mem_nullPad, List.mem_filter,
    List.filter_eq_nil_iff, Bool.not_eq_true]
  constructor
  · rintro ⟨a', ha', o', h, rfl, rfl⟩
    refine ⟨ha', ?_⟩
    rcases h with ⟨rfl, hnone⟩ | ⟨b, ⟨hb, hon⟩, rfl⟩
    · exact Or.inl ⟨rfl, hnone⟩
    · exact Or.inr ⟨b, hb, hon, rfl⟩
  · rintro ⟨ha, h⟩
    refine ⟨a, ha, o, ?_, rfl, rfl⟩
    rcases h with ⟨rfl, hnone⟩ | ⟨b, hb, hon, rfl⟩
    · exact Or.inl ⟨rfl, hnone⟩
    · exact Or.inr ⟨b, ⟨hb, hon⟩, rfl⟩

theorem descOrder_total (a b : Option ℤ) : descOrder a b = true ∨ descOrder b a = true := by
  cases a <;> cases b <;> simp [descOrder]
  exact Int.le_total _ _

theorem descOrder_trans {a b c : Option ℤ} (h1 : descOrder a b = true)
    (h2 : descOrder b c = true) : descOrder a c = true := by
  cases a <;> cases b <;> cases c <;> simp_all [descOrder]
  omega

theorem sqlLe_iff (d : Option ℤ) (m : ℤ) : sqlLe d m = true ↔ difficultyAtMost d m := by
  cases d <;> simp [sqlLe, difficultyAtMost]

theorem orderByDesc_sorted {α : Type} (key : α → Option ℤ) (rows : List α) :
    (orderByDesc key rows).Pairwise fun a b => descOrder (key a) (key b) = true :=
  @List.sorted_insertionSort α (fun a b => descOrder (key a) (key b) = true) _
    ⟨fun a b => descOrder_total (key a) (key b)⟩ ⟨fun _ _ _ h1 h2 => descOrder_trans h1 h2⟩ rows

theorem mem_orderByDesc {α : Type} (key : α → Option ℤ) (rows : List α) (a : α) :
    a ∈ orderByDesc key rows ↔ a ∈ rows :=
  (List.perm_insertionSort _ rows).mem_iff

theorem length_orderByDesc {α : Type} (key : α → Option ℤ) (rows : List α) :
    (orderByDesc key rows).length = rows.length :=
  (List.perm_insertionSort _ rows).length_eq

/-! ### The content query -/

section RecommendQuery

variable {α β : Type} (content : List α) (progress : List β) (onCond : α → β → Bool)
  (pid : β → ℕ) (difficulty : α → Option ℤ) (maxDifficulty : ℤ)

/-- Rows that survive the `WHERE` clause of a content query. -/
theorem mem_kept_iff (a : α) (o : Option β) :
    (a, o) ∈ (leftJoin content progress onCond).filter
        (fun r => (r.2.map pid).isNone && sqlLe (difficulty r.1) maxDifficulty) ↔
      o = none ∧ a ∈ content ∧ (∀ b ∈ progress, onCond a b = false) ∧
        difficultyAtMost (difficulty a) maxDifficulty := by
  rw [List.mem_filter, mem_leftJoin, ← sqlLe_iff]
  constructor
  · rintro ⟨⟨ha, h⟩, hk⟩
    simp only [Bool.and_eq_true] at hk
    rcases h with ⟨rfl, hnone⟩ | ⟨b, -, -, rfl⟩
    · exact ⟨rfl, ha, hnone, hk.2⟩
    · simp at hk
  · rintro ⟨rfl, ha, hnone, hle⟩
    exact ⟨⟨ha, Or.inl ⟨rfl, hnone⟩⟩, by simp [hle]⟩

theorem recommendQuery_length_le :
    (recommendQuery content progress onCond pid difficulty maxDifficulty).length ≤ 3 := by
  simp [recommendQuery, List.length_take]

theorem mem_recommendQuery {a : α}
    (h : a ∈ recommendQuery content progress onCond pid difficulty maxDifficulty) :
    a ∈ content ∧ (∀ b ∈ progress, onCond a b = false) ∧
      difficultyAtMost (difficulty a) maxDifficulty := by
  simp only [recommendQuery, List.mem_map] at h
  obtain ⟨⟨a', o⟩, hr, rfl⟩ := h
  have hr := (mem_orderByDesc _ _ _).mp (List.mem_of_mem_take hr)
  exact ((mem_kept_iff content progress onCond pid difficulty maxDifficulty a' o).mp hr).2

theorem descOrder_to_difficultyGe {a b : Option ℤ} {m : ℤ} (ha : difficultyAtMost a m)
    (hb : difficultyAtMost b m) (h : descOrder a b = true) : difficultyGe a b := by
  obtain ⟨x, rfl, -⟩ := ha
  obtain ⟨y, rfl, -⟩ := hb
  exact ⟨x, y, rfl, rfl, by simpa [descOrder] using h⟩

theorem recommendQuery_descending :
    difficultyDescending difficulty
      (recommendQuery content progress onCond pid difficulty maxDifficulty) := by
  unfold difficultyDescending
  have hall := fun a (h : a ∈ recommendQuery content progress onCond pid difficulty maxDifficulty)
    => (mem_recommendQuery content progress onCond pid difficulty maxDifficulty h).2.2
  have hsorted : (recommendQuery content progress onCond pid difficulty maxDifficulty).Pairwise
      fun a b => descOrder (difficulty a) (difficulty b) = true := by
    unfold recommendQuery
    rw [List.pairwise_map]
    exact (orderByDesc_sorted _ _).sublist (List.take_sublist _ _)
  exact hsorted.imp_of_mem fun {a b} ha hb h => descOrder_to_difficultyGe (hall a ha) (hall b hb) h

theorem recommendQuery_hardest_first {a : α} (ha : a ∈ content)
    (hnone : ∀ b ∈ progress, onCond a b = false)
    (hle : difficultyAtMost (difficulty a) maxDifficulty)
    (hnot : a ∉ recommendQuery content progress onCond pid difficulty maxDifficulty) :
    ∀ r ∈ recommendQuery content progress onCond pid difficulty maxDifficulty,
      difficultyGe (difficulty r) (difficulty a) := by
  intro r hr
  have hrle := (mem_recommendQuery content progress onCond pid difficulty maxDifficulty hr).2.2
  refine descOrder_to_difficultyGe hrle hle ?_
  simp only [recommendQuery, List.mem_map] at hr hnot
  obtain ⟨⟨r', o⟩, hr', rfl⟩ := hr
  have hkept := (mem_kept_iff content progress onCond pid difficulty maxDifficulty a none).mpr
    ⟨rfl, ha, hnone, hle⟩
  have hsorted := (mem_orderByDesc (fun r : α × Option β => difficulty r.1) _ _).mpr hkept
  rw [← List.take_append_drop 3 (orderByDesc _ _), List.mem_append] at hsorted
  rcases hsorted with h | h
  · exact absurd ⟨(a, none), h, rfl⟩ hnot
  · have hp := orderByDesc_sorted (fun r : α × Option β => difficulty r.1)
      ((leftJoin content progress onCond).filter
        (fun r => (r.2.map pid).isNone && sqlLe (difficulty r.1) maxDifficulty))
    rw [← List.take_append_drop 3 (orderByDesc _ _), List.pairwise_append] at hp
    exact hp.2.2 _ hr' _ h

theorem recommendQuery_complete
    (hshort : (recommendQuery content progress onCond pid difficulty maxDifficulty).length < 3)
    {a : α} (ha : a ∈ content) (hnone : ∀ b ∈ progress, onCond a b = false)
    (hle : difficultyAtMost (difficulty a) maxDifficulty) :
    a ∈ recommendQuery content progress onCond pid difficulty maxDifficulty := by
  have hkept := (mem_kept_iff content progress onCond pid difficulty maxDifficulty a none).mpr
    ⟨rfl, ha, hnone, hle⟩
  have hsorted := (mem_orderByDesc (fun r : α × Option β => difficulty r.1) _ _).mpr hkept
  simp only [recommendQuery, List.length_map, List.length_take] at hshort
  simp only [recommendQuery, List.mem_map]
  refine ⟨(a, none), ?_, rfl⟩
  rw [List.take_of_length_le (by omega)]
  exact hsorted

end RecommendQuery

/-! ### `GET /recommendations` -/

theorem no_lesson_match_iff (s : Store) (userId : ℕ) (l : Lesson) :
    (∀ b ∈ s.user_lesson_progress,
        (decide (l.id = b.lesson_id) && decide (b.user_id = userId)) = false) ↔
      ¬ hasLessonRecord s userId l := by
  unfold hasLessonRecord
  constructor
  · rintro h ⟨r, hr, h1, h2⟩
    have := h r hr
    simp [h1, h2] at this
  · intro h b hb
    by_contra hc
    simp only [Bool.not_eq_false, Bool.and_eq_true, decide_eq_true_eq] at hc
    exact h ⟨b, hb, hc.1.symm, hc.2⟩

theorem no_scenario_match_iff (s : Store) (userId : ℕ) (sc : Scenario) :
    (∀ b ∈ s.user_progress,
        (decide (sc.id = b.scenario_id) && decide (b.user_id = userId)) = false) ↔
      ¬ hasScenarioRecord s userId sc := by
  unfold hasScenarioRecord
  constructor
  · rintro h ⟨r, hr, h1, h2⟩
    have := h r hr
    simp [h1, h2] at this
  · intro h b hb
    by_contra hc
    simp only [Bool.not_eq_false, Bool.and_eq_true, decide_eq_true_eq] at hc
    exact h ⟨b, hb, hc.1.symm, hc.2⟩

theorem mem_recommendedLessons {s : Store} {userId : ℕ} {l : Lesson}
    (h : l ∈ (getRecommendations s userId).recommendedLessons) : eligibleLesson s userId l := by
  obtain ⟨h1, h2, h3⟩ := mem_recommendQuery _ _ _ _ _ _ h
  exact ⟨h1, (no_lesson_match_iff s userId l).mp h2, h3⟩

theorem mem_recommendedScenarios {s : Store} {userId : ℕ} {sc : Scenario}
    (h : sc ∈ (getRecommendations s userId).recommendedScenarios) :
    eligibleScenario s userId sc := by
  obtain ⟨h1, h2, h3⟩ := mem_recommendQuery _ _ _ _ _ _ h
  exact ⟨h1, (no_scenario_match_iff s userId sc).mp h2, h3⟩

/-- C2: `GET /recommendations` never returns a lesson for which the user has a
`user_lesson_progress` row nor a scenario for which the user has a `user_progress` row;
when the user has a row for every lesson and every scenario, both lists are empty. -/
theorem recommendations_exclude_recorded (s : Store) (userId : ℕ) :
    (∀ l ∈ (getRecommendations s userId).recommendedLessons, ¬ hasLessonRecord s userId l) ∧
    (∀ sc ∈ (getRecommendations s userId).recommendedScenarios,
      ¬ hasScenarioRecord s userId sc) ∧
    ((∀ l ∈ s.lessons, hasLessonRecord s userId l) →
      (∀ sc ∈ s.scenarios, hasScenarioRecord s userId sc) →
      (getRecommendations s userId).recommendedLessons = [] ∧
        (getRecommendations s userId).recommendedScenarios = []) := by
  refine ⟨fun l hl => (mem_recommendedLessons hl).2.1,
    fun sc hsc => (mem_recommendedScenarios hsc).2.1, fun hL hS => ⟨?_, ?_⟩⟩
  · rw [List.eq_nil_iff_forall_not_mem]
    intro l hl
    have he := mem_recommendedLessons hl
    exact he.2.1 (hL l he.1)
  · rw [List.eq_nil_iff_forall_not_mem]
    intro sc hsc
    have he := mem_recommendedScenarios hsc
    exact he.2.1 (hS sc he.1)

/-- C2 (witness): in `allDoneStore` user `1` has a row for every lesson (one of them with
`completed = 0`) and every scenario, and both lists are empty. -/
theorem recommendations_exclude_recorded_witness :
    (∀ l ∈ allDoneStore.lessons, hasLessonRecord allDoneStore 1 l) ∧
    (∀ sc ∈ allDoneStore.scenarios, hasScenarioRecord allDoneStore 1 sc) ∧
    (getRecommendations allDoneStore 1).recommendedLessons = [] ∧
    (getRecommendations allDoneStore 1).recommendedScenarios = [] := by
  have hL : ∀ l ∈ allDoneStore.lessons, hasLessonRecord allDoneStore 1 l := by
    simp [allDoneStore, hasLessonRecord]
  have hS : ∀ sc ∈ allDoneStore.scenarios, hasScenarioRecord allDoneStore 1 sc := by
    simp [allDoneStore, hasScenarioRecord]
  exact ⟨hL, hS, (recommendations_exclude_recorded allDoneStore 1).2.2 hL hS⟩

/-- C3: every recommended lesson and scenario has a difficulty that is set and at most
`level + 1`, where `level` is `calculateUserLevel` of the statistics row computed in the
same request.  Statistics `(100, 5, 5)` give the bound `44`; a user with no quiz scores
and no progress, statistics `(null, 0, 0)`, gets the bound `1`. -/
theorem recommendations_difficulty_le (s : Store) (userId : ℕ) :
    (∀ l ∈ (getRecommendations s userId).recommendedLessons,
      difficultyAtMost l.difficulty (calculateUserLevel (statsQuery s userId) + 1)) ∧
    (∀ sc ∈ (getRecommendations s userId).recommendedScenarios,
      difficultyAtMost sc.difficulty (calculateUserLevel (statsQuery s userId) + 1)) ∧
    (statsQuery s userId = ⟨some 100, 5, 5⟩ →
      (∀ l ∈ (getRecommendations s userId).recommendedLessons,
        difficultyAtMost l.difficulty 44) ∧
      (∀ sc ∈ (getRecommendations s userId).recommendedScenarios,
        difficultyAtMost sc.difficulty 44)) ∧
    (statsQuery s userId = ⟨none, 0, 0⟩ →
      (∀ l ∈ (getRecommendations s userId).recommendedLessons,
        difficultyAtMost l.difficulty 1) ∧
      (∀ sc ∈ (getRecommendations s userId).recommendedScenarios,
        difficultyAtMost sc.difficulty 1)) := by
  have hL : ∀ l ∈ (getRecommendations s userId).recommendedLessons,
      difficultyAtMost l.difficulty (calculateUserLevel (statsQuery s userId) + 1) :=
    fun l hl => (mem_recommendedLessons hl).2.2
  have hS : ∀ sc ∈ (getRecommendations s userId).recommendedScenarios,
      difficultyAtMost sc.difficulty (calculateUserLevel (statsQuery s userId) + 1) :=
    fun sc hsc => (mem_recommendedScenarios hsc).2.2
  have h43 : calculateUserLevel ⟨some 100, 5, 5⟩ + 1 = 44 := by decide!
  have h0 : calculateUserLevel ⟨none, 0, 0⟩ + 1 = 1 := by decide!
  refine ⟨hL, hS, fun h => ?_, fun h => ?_⟩
  · rw [h, h43] at hL hS
    exact ⟨hL, hS⟩
  · rw [h, h0] at hL hS
    exact ⟨hL, hS⟩

/-- C3 (witness): the two scenarios of the specification on concrete stores. -/
theorem recommendations_difficulty_le_witness :
    statsQuery advancedStore 1 = ⟨some 100, 5, 5⟩ ∧
    (∀ l ∈ (getRecommendations advancedStore 1).recommendedLessons,
      difficultyAtMost l.difficulty 44) ∧
    statsQuery coldStartStore 1 = ⟨none, 0, 0⟩ ∧
    (∀ l ∈ (getRecommendations coldStartStore 1).recommendedLessons,
      difficultyAtMost l.difficulty 1) :=
  ⟨by decide!, ((recommendations_difficulty_le advancedStore 1).2.2.1 (by decide!)).1,
    by decide!, ((recommendations_difficulty_le coldStartStore 1).2.2.2 (by decide!)).1⟩

/-- C4: each recommendation list has at most three items, is ordered by non-increasing
difficulty, and is hardest-first maximal: an eligible item (in the table, no progress row
of the user, difficulty at most `level + 1`) that is not returned has difficulty at most
that of every returned item, and a list of fewer than three items contains every eligible
item. -/
theorem recommendations_top_three (s : Store) (userId : ℕ) :
    ((getRecommendations s userId).recommendedLessons.length ≤ 3 ∧
      difficultyDescending Lesson.difficulty (getRecommendations s userId).recommendedLessons ∧
      (∀ l, eligibleLesson s userId l → l ∉ (getRecommendations s userId).recommendedLessons →
        ∀ r ∈ (getRecommendations s userId).recommendedLessons,
          difficultyGe r.difficulty l.difficulty) ∧
      ((getRecommendations s userId).recommendedLessons.length < 3 →
        ∀ l, eligibleLesson s userId l → l ∈ (getRecommendations s userId).recommendedLessons)) ∧
    ((getRecommendations s userId).recommendedScenarios.length ≤ 3 ∧
      difficultyDescending Scenario.difficulty
        (getRecommendations s userId).recommendedScenarios ∧
      (∀ sc, eligibleScenario s userId sc →
        sc ∉ (getRecommendations s userId).recommendedScenarios →
        ∀ r ∈ (getRecommendations s userId).recommendedScenarios,
          difficultyGe r.difficulty sc.difficulty) ∧
      ((getRecommendations s userId).recommendedScenarios.length < 3 →
        ∀ sc, eligibleScenario s userId sc →
          sc ∈ (getRecommendations s userId).recommendedScenarios)) := by
  refine ⟨⟨recommendQuery_length_le _ _ _ _ _ _, recommendQuery_descending _ _ _ _ _ _, ?_, ?_⟩,
    ⟨recommendQuery_length_le _ _ _ _ _ _, recommendQuery_descending _ _ _ _ _ _, ?_, ?_⟩⟩
  · intro l he hnot
    exact recommendQuery_hardest_first _ _ _ _ _ _ he.1
      ((no_lesson_match_iff s userId l).mpr he.2.1) he.2.2 hnot
  · intro hshort l he
    exact recommendQuery_complete _ _ _ _ _ _ hshort he.1
      ((no_lesson_match_iff s userId l).mpr he.2.1) he.2.2
  · intro sc he hnot
    exact recommendQuery_hardest_first _ _ _ _ _ _ he.1
      ((no_scenario_match_iff s userId sc).mpr he.2.1) he.2.2 hnot
  · intro hshort sc he
    exact recommendQuery_complete _ _ _ _ _ _ hshort he.1
      ((no_scenario_match_iff s userId sc).mpr he.2.1) he.2.2

/-- C4 (witness): in `advancedStore` the open lessons have difficulty `10`, `44`, `45`;
the level is `43`, so lesson `8` is out of reach and the list is lessons `7`, `6`: fewer
than three items, and the eligible lesson `6` is in it. -/
theorem recommendations_top_three_witness :
    (getRecommendations advancedStore 1).recommendedLessons
        = [⟨7, "l7", some 44⟩, ⟨6, "l6", some 10⟩] ∧
    eligibleLesson advancedStore 1 ⟨6, "l6", some 10⟩ ∧
    (⟨6, "l6", some 10⟩ : Lesson) ∈ (getRecommendations advancedStore 1).recommendedLessons := by
  have hlist : (getRecommendations advancedStore 1).recommendedLessons
      = [⟨7, "l7", some 44⟩, ⟨6, "l6", some 10⟩] := by decide!
  have hlevel : userLevel advancedStore 1 = 43 := by decide!
  have helig : eligibleLesson advancedStore 1 ⟨6, "l6", some 10⟩ := by
    refine ⟨by simp [advancedStore], ?_, ?_⟩
    · simp [hasLessonRecord, advancedStore]
    · rw [hlevel]
      exact ⟨10, rfl, by norm_num⟩
  exact ⟨hlist, helig,
    (recommendations_top_three advancedStore 1).1.2.2.2 (by rw [hlist]; decide) _ helig⟩

/-! ### Access middleware -/

theorem splitOnSpace_ne_nil (cs : List Char) : splitOnSpace cs ≠ [] := by
  cases cs with
  | nil => simp [splitOnSpace]
  | cons c cs =>
    unfold splitOnSpace
    split_ifs
    · simp
    · split <;> simp

theorem splitOnSpace_of_no_space (cs : List Char) (h : ' ' ∉ cs) : splitOnSpace cs = [cs] := by
  induction cs with
  | nil => rfl
  | cons c cs ih =>
    simp only [List.mem_cons, not_or] at h
    have hc : c ≠ ' ' := fun e => h.1 e.symm
    rw [splitOnSpace, if_neg hc, ih h.2]

theorem splitOnSpace_length_of_space (cs : List Char) (h : ' ' ∈ cs) :
    2 ≤ (splitOnSpace cs).length := by
  induction cs with
  | nil => simp at h
  | cons c cs ih =>
    by_cases hc : c = ' '
    · rw [splitOnSpace, if_pos hc]
      have := List.length_pos.mpr (splitOnSpace_ne_nil cs)
      simp only [List.length_cons]
      omega
    · have hmem : ' ' ∈ cs := by
        rcases List.mem_cons.mp h with h | h
        · exact absurd h.symm hc
        · exact h
      have ih := ih hmem
      rw [splitOnSpace, if_neg hc]
      cases hs : splitOnSpace cs with
      | nil => rw [hs] at ih; simp at ih
      | cons seg rest =>
        rw [hs] at ih
        simpa using ih

/-- A header has no second space-separated segment exactly when it contains no space. -/
theorem splitOnSpace_second_none_iff (cs : List Char) :
    (splitOnSpace cs)[1]? = none ↔ ' ' ∉ cs := by
  constructor
  · intro h hmem
    have := splitOnSpace_length_of_space cs hmem
    rw [List.getElem?_eq_none_iff] at h
    omega
  · intro h
    rw [splitOnSpace_of_no_space cs h]
    rfl

theorem bearerToken_of_segment {hdr : String} {seg : List Char}
    (h : (splitOnSpace hdr.toList)[1]? = some seg) :
    bearerToken (some hdr) = some (String.mk seg) := by
  have hne : hdr ≠ "" := by
    rintro rfl
    simp [splitOnSpace] at h
  simp only [bearerToken, if_neg hne, h, Option.map_some']

/-- C5 (counterexample): a request whose authorization header is the empty string is not
answered with 401.  The empty string is falsy, so `authHeader && …` yields the header
itself, `"" == null` is false, and the empty string goes to `jwt.verify`; with a verifier
that rejects it the answer is 403. -/
theorem authenticateToken_empty_header :
    (∀ verify : String → Except String Claims,
      (authenticateToken verify ⟨some "", none, ""⟩).2 ≠ [Effect.sendStatus 401]) ∧
    authenticateToken verifyNone ⟨some "", none, ""⟩
      = (⟨some "", none, ""⟩, [Effect.sendStatus 403]) := by
  refine ⟨fun verify => ?_, by decide⟩
  have hb : bearerToken (some "") = some "" := by decide
  simp only [authenticateToken, hb]
  cases verify "" <;> simp

/-- C5 (amended): when the authorization header is absent, or is a non-empty string with
no second space-separated segment, `authenticateToken` answers 401, does not call `next`
and leaves the request, `req.user` included, as it was. -/
theorem authenticateToken_no_token (verify : String → Except String Claims) (req : Request)
    (h : req.authorization = none ∨
      ∃ hdr, req.authorization = some hdr ∧ hdr ≠ "" ∧ (splitOnSpace hdr.toList)[1]? = none) :
    authenticateToken verify req = (req, [Effect.sendStatus 401]) := by
  rcases h with h | ⟨hdr, h, hne, hseg⟩
  · simp [authenticateToken, bearerToken, h]
  · simp only [authenticateToken, bearerToken, h, if_neg hne, hseg, Option.map_none']

/-- C5 (witness): the header `Bearer`, without a token, is answered with 401. -/
theorem authenticateToken_no_token_witness :
    authenticateToken verifyNone ⟨some "Bearer", none, "payload"⟩
      = (⟨some "Bearer", none, "payload"⟩, [Effect.sendStatus 401]) :=
  authenticateToken_no_token verifyNone ⟨some "Bearer", none, "payload"⟩
    (Or.inr ⟨"Bearer", rfl, by decide, by decide⟩)

/-- C6: when the authorization header has a second space-separated segment (possibly the
empty string) and `jwt.verify` fails on it, `authenticateToken` answers 403, does not call
`next` and leaves the request, `req.user` included, as it was. -/
theorem authenticateToken_rejected (verify : String → Except String Claims) (req : Request)
    (hdr : String) (seg : List Char) (err : String)
    (hh : req.authorization = some hdr) (hseg : (splitOnSpace hdr.toList)[1]? = some seg)
    (hv : verify (String.mk seg) = Except.error err) :
    authenticateToken verify req = (req, [Effect.sendStatus 403]) := by
  simp [authenticateToken, hh, bearerToken_of_segment hseg, hv]

/-- C6 (witness): `Bearer ` followed by nothing carries the empty token, which the
verifier rejects. -/
theorem authenticateToken_rejected_witness :
    (splitOnSpace "Bearer ".toList)[1]? = some [] ∧
    authenticateToken verifyNone ⟨some "Bearer ", none, "payload"⟩
      = (⟨some "Bearer ", none, "payload"⟩, [Effect.sendStatus 403]) :=
  ⟨by decide,
    authenticateToken_rejected verifyNone ⟨some "Bearer ", none, "payload"⟩ "Bearer " []
      "jwt must be provided" rfl (by decide) rfl⟩

/-- C7: when the request carries a token on which `jwt.verify` succeeds with `claims`,
`authenticateToken` sets `req.user` to exactly `claims`, calls `next` once, sends no
response, and changes no other field of the request. -/
theorem authenticateToken_accepted (verify : String → Except String Claims) (req : Request)
    (token : String) (claims : Claims)
    (ht : bearerToken req.authorization = some token) (hv : verify token = Except.ok claims) :
    authenticateToken verify req = ({ req with user := some claims }, [Effect.next]) ∧
      (authenticateToken verify req).1.user = some claims ∧
      (authenticateToken verify req).1.authorization = req.authorization ∧
      (authenticateToken verify req).1.body = req.body := by
  simp [authenticateToken, ht, hv]

/-- C7 (witness): `Bearer abc` with a verifier that accepts `abc`. -/
theorem authenticateToken_accepted_witness :
    authenticateToken (verifyOnly "abc" ⟨7, "ana", false, 100, 3700⟩)
        ⟨some "Bearer abc", none, "payload"⟩
      = (⟨some "Bearer abc", some ⟨7, "ana", false, 100, 3700⟩, "payload"⟩, [Effect.next]) :=
  (authenticateToken_accepted (verifyOnly "abc" ⟨7, "ana", false, 100, 3700⟩)
    ⟨some "Bearer abc", none, "payload"⟩ "abc" ⟨7, "ana", false, 100, 3700⟩
    (by decide) (by simp [verifyOnly])).1

/-! ### `POST /login` -/

/-- C8 (counterexample): user `ana` exists and `bob` does not; a wrong password for `ana`
and any password for `bob` get different response bodies. -/
theorem postLogin_failures_differ :
    usernameExists coldStartStore "ana" ∧ ¬ usernameExists coldStartStore "bob" ∧
    postLogin comparePlain signPlain coldStartStore ⟨some "ana", some "wrong"⟩
      = ⟨401, LoginJson.error "Invalid credentials"⟩ ∧
    postLogin comparePlain signPlain coldStartStore ⟨some "bob", some "wrong"⟩
      = ⟨401, LoginJson.error "User not found"⟩ ∧
    postLogin comparePlain signPlain coldStartStore ⟨some "ana", some "wrong"⟩
      ≠ postLogin comparePlain signPlain coldStartStore ⟨some "bob", some "wrong"⟩ := by
  refine ⟨?_, ?_, by decide, by decide, by decide⟩
  · simp [usernameExists, coldStartStore]
  · simp [usernameExists, coldStartStore]

/-- C8 (amended): a login with an existing username and a password that does not match
the stored hash, and a login with an unknown username, both get status 401 and a body with
the single key `error`; the messages are `Invalid credentials` and `User not found`, so
the two responses are not equal. -/
theorem postLogin_failure_responses (compare : String → String → Bool)
    (sign : TokenPayload → String) (s : Store) (known unknown password : String)
    (other : Option String) (user : User)
    (hknown : firstUser s known = some user)
    (hwrong : compare password user.password = false)
    (hunknown : ¬ usernameExists s unknown) :
    postLogin compare sign s ⟨some known, some password⟩
      = ⟨401, LoginJson.error "Invalid credentials"⟩ ∧
    postLogin compare sign s ⟨some unknown, other⟩ = ⟨401, LoginJson.error "User not found"⟩ ∧
    (postLogin compare sign s ⟨some known, some password⟩).status
      = (postLogin compare sign s ⟨some unknown, other⟩).status ∧
    (postLogin compare sign s ⟨some known, some password⟩).body.isError = true ∧
    (postLogin compare sign s ⟨some unknown, other⟩).body.isError = true ∧
    postLogin compare sign s ⟨some known, some password⟩
      ≠ postLogin compare sign s ⟨some unknown, other⟩ := by
  have h1 : postLogin compare sign s ⟨some known, some password⟩
      = ⟨401, LoginJson.error "Invalid credentials"⟩ := by
    unfold firstUser at hknown
    unfold postLogin
    cases hf : s.users.filter fun u => decide (u.username = known) with
    | nil => rw [hf] at hknown; simp at hknown
    | cons u us =>
      rw [hf] at hknown
      simp only [List.head?_cons, Option.some.injEq] at hknown
      subst hknown
      simp only [hf, hwrong]
      simp
  have h2 : postLogin compare sign s ⟨some unknown, other⟩
      = ⟨401, LoginJson.error "User not found"⟩ := by
    have hf : (s.users.filter fun u => decide (u.username = unknown)) = [] := by
      rw [List.filter_eq_nil_iff]
      intro u hu
      simp only [decide_eq_true_eq]
      exact fun e => hunknown ⟨u, hu, e⟩
    unfold postLogin
    simp only [hf]
  rw [h1, h2]
  refine ⟨rfl, rfl, rfl, rfl, rfl, by decide⟩

/-- C8 (witness): the two failing logins on `coldStartStore`. -/
theorem postLogin_failure_responses_witness :
    postLogin comparePlain signPlain coldStartStore ⟨some "ana", some "wrong"⟩
      = ⟨401, LoginJson.error "Invalid credentials"⟩ ∧
    postLogin comparePlain signPlain coldStartStore ⟨some "bob", none⟩
      = ⟨401, LoginJson.error "User not found"⟩ :=
  have h := postLogin_failure_responses comparePlain signPlain coldStartStore "ana" "bob"
    "wrong" none ⟨1, "ana", "hash", false, 0⟩ (by decide) (by decide)
    (by simp [usernameExists, coldStartStore])
  ⟨h.1, h.2.1⟩

/-! ### Aggregation query -/

theorem leftJoin_cons {α β : Type} (a : α) (rows : List α) (table : List β)
    (onCond : α → β → Bool) :
    leftJoin (a :: rows) table onCond
      = (nullPad (table.filter (onCond a))).map (fun o => (a, o))
        ++ leftJoin rows table onCond := by
  simp [leftJoin]

/-- A `WHERE` test on the left row can be applied before the join. -/
theorem leftJoin_filter_fst {α β : Type} (rows : List α) (table : List β)
    (onCond : α → β → Bool) (p : α → Bool) :
    (leftJoin rows table onCond).filter (fun r => p r.1)
      = leftJoin (rows.filter p) table onCond := by
  induction rows with
  | nil => simp [leftJoin]
  | cons a rows ih =>
    rw [leftJoin_cons, List.filter_append, ih]
    by_cases hp : p a = true
    · rw [List.filter_cons_of_pos hp, leftJoin_cons]
      congr 1
      rw [List.filter_eq_self]
      intro r hr
      simp only [List.mem_map] at hr
      obtain ⟨o, -, rfl⟩ := hr
      exact hp
    · rw [List.filter_cons_of_neg hp]
      have hnil : ((nullPad (table.filter (onCond a))).map (fun o => (a, o))).filter
          (fun r => p r.1) = [] := by
        rw [List.filter_eq_nil_iff]
        intro r hr
        simp only [List.mem_map] at hr
        obtain ⟨o, -, rfl⟩ := hr
        exact hp
      rw [hnil, List.nil_append]

/-- When every left row has the same matches, the join is a product. -/
theorem leftJoin_uniform {α β : Type} (rows : List α) (table : List β)
    (onCond : α → β → Bool) (found : List β)
    (h : ∀ a ∈ rows, table.filter (onCond a) = found) :
    leftJoin rows table onCond = rows ×ˢ nullPad found := by
  induction rows with
  | nil => simp [leftJoin]
  | cons a rows ih =>
    rw [leftJoin_cons, List.product_cons, h a (List.mem_cons_self _ _),
      ih fun b hb => h b (List.mem_cons_of_mem _ hb)]

theorem sum_map_product_fst {α β R : Type} [CommSemiring R] (X : List α) (Y : List β) (h : α → R) :
    ((X ×ˢ Y).map fun r => h r.1).sum = (Y.length : R) * (X.map h).sum := by
  induction X with
  | nil => simp
  | cons a X ih =>
    rw [List.product_cons, List.map_append, List.sum_append, ih, List.map_map]
    simp only [Function.comp_def, List.map_const', List.sum_replicate, nsmul_eq_mul,
      List.map_cons, List.sum_cons]
    ring

theorem sum_map_product_snd {α β R : Type} [CommSemiring R] (X : List α) (Y : List β) (h : β → R) :
    ((X ×ˢ Y).map fun r => h r.2).sum = (X.length : R) * (Y.map h).sum := by
  induction X with
  | nil => simp
  | cons a X ih =>
    rw [List.product_cons, List.map_append, List.sum_append, ih, List.map_map]
    simp only [Function.comp_def, List.length_cons, Nat.cast_succ]
    ring

theorem reduceOption_sum (vals : List (Option ℚ)) :
    vals.reduceOption.sum = (vals.map fun o => o.getD 0).sum := by
  induction vals with
  | nil => simp
  | cons o vals ih =>
    cases o with
    | none => simp [List.reduceOption_cons_of_none, ih]
    | some v => simp [List.reduceOption_cons_of_some, ih]

theorem reduceOption_length {γ : Type} (vals : List (Option γ)) :
    vals.reduceOption.length = (vals.map fun o => if o.isSome then 1 else 0).sum := by
  induction vals with
  | nil => simp
  | cons o vals ih =>
    cases o with
    | none => simp [List.reduceOption_cons_of_none, ih]
    | some v => simp [List.reduceOption_cons_of_some, ih]; omega

theorem sqlAvg_eq (vals : List (Option ℚ)) :
    sqlAvg vals = if vals.reduceOption.length = 0 then none
      else some (vals.reduceOption.sum / vals.reduceOption.length) := by
  unfold sqlAvg
  simp only [List.isEmpty_iff, List.length_eq_zero]

theorem nullPad_sum {β : Type} (found : List β) (score : β → ℚ) :
    ((nullPad found).map fun o => (o.map score).getD 0).sum = (found.map score).sum := by
  cases found with
  | nil => simp [nullPad]
  | cons b bs => simp [nullPad, List.map_map, Function.comp_def]

theorem nullPad_count {β : Type} (found : List β) (score : β → ℚ) :
    ((nullPad found).map fun o => if (o.map score).isSome then 1 else 0).sum = found.length := by
  cases found with
  | nil => simp [nullPad]
  | cons b bs =>
    simp [nullPad, List.map_map, Function.comp_def]
    omega

theorem nullPad_length_pos {β : Type} (found : List β) : 0 < (nullPad found).length :=
  List.length_pos.mpr (nullPad_ne_nil found)

theorem countDistinct_eq_card (vals : List (Option ℕ)) (ids : List ℕ)
    (h : ∀ x, some x ∈ vals ↔ x ∈ ids) : countDistinct vals = ids.toFinset.card := by
  unfold countDistinct
  rw [← List.card_toFinset]
  congr 1
  ext x
  simp only [List.mem_toFinset, List.reduceOption_mem_iff, h]

theorem some_mem_map_nullPad {β : Type} (found : List β) (f : β → ℕ) (x : ℕ) :
    (∃ o ∈ nullPad found, o.map f = some x) ↔ x ∈ found.map f := by
  simp only [mem_nullPad, List.mem_map]
  constructor
  · rintro ⟨o, h | ⟨b, hb, rfl⟩, ho⟩
    · rw [h.1] at ho
      simp at ho
    · exact ⟨b, hb, by simpa using ho⟩
  · rintro ⟨b, hb, rfl⟩
    exact ⟨some b, Or.inr ⟨b, hb, rfl⟩, rfl⟩

/-- `AVG` of a column of the first joined table is not changed by the later joins. -/
theorem sqlAvg_over_product {A B C D : Type} (U : List A) (Q : List B) (P : List C)
    (S : List D) (score : B → ℚ) (hU : U ≠ []) (hP : P ≠ []) (hS : S ≠ []) :
    sqlAvg ((((U ×ˢ nullPad Q) ×ˢ P) ×ˢ S).map fun r => r.1.1.2.map score)
      = meanScore (Q.map score) := by
  have hsum : ((((U ×ˢ nullPad Q) ×ˢ P) ×ˢ S).map fun r => r.1.1.2.map score).reduceOption.sum
      = (S.length : ℚ) * ((P.length : ℚ) * ((U.length : ℚ) * (Q.map score).sum)) := by
    rw [reduceOption_sum, List.map_map]
    simp only [Function.comp_def]
    rw [sum_map_product_fst ((U ×ˢ nullPad Q) ×ˢ P) S fun r => (r.1.2.map score).getD 0,
      sum_map_product_fst (U ×ˢ nullPad Q) P fun r => (r.2.map score).getD 0,
      sum_map_product_snd U (nullPad Q) fun o => (o.map score).getD 0, nullPad_sum]
  have hlen : ((((U ×ˢ nullPad Q) ×ˢ P) ×ˢ S).map fun r => r.1.1.2.map score).reduceOption.length
      = S.length * (P.length * (U.length * Q.length)) := by
    rw [reduceOption_length, List.map_map]
    simp only [Function.comp_def]
    rw [sum_map_product_fst ((U ×ˢ nullPad Q) ×ˢ P) S
        fun r => if (r.1.2.map score).isSome then 1 else 0,
      sum_map_product_fst (U ×ˢ nullPad Q) P fun r => if (r.2.map score).isSome then 1 else 0,
      sum_map_product_snd U (nullPad Q) fun o => if (o.map score).isSome then 1 else 0,
      nullPad_count]
    simp
  have hU0 : U.length ≠ 0 := fun h => hU (List.length_eq_zero.mp h)
  have hP0 : P.length ≠ 0 := fun h => hP (List.length_eq_zero.mp h)
  have hS0 : S.length ≠ 0 := fun h => hS (List.length_eq_zero.mp h)
  rw [sqlAvg_eq, hsum, hlen]
  unfold meanScore
  by_cases hQ : Q = []
  · subst hQ
    simp
  · have hQ0 : Q.length ≠ 0 := fun h => hQ (List.length_eq_zero.mp h)
    have hne : S.length * (P.length * (U.length * Q.length)) ≠ 0 := by positivity
    have hmap : Q.map score ≠ [] := by simpa using hQ
    rw [if_neg hne, if_neg hmap]
    congr 1
    have hUq : (U.length : ℚ) ≠ 0 := by exact_mod_cast hU0
    have hPq : (P.length : ℚ) ≠ 0 := by exact_mod_cast hP0
    have hSq : (S.length : ℚ) ≠ 0 := by exact_mod_cast hS0
    have hQq : (Q.length : ℚ) ≠ 0 := by exact_mod_cast hQ0
    push_cast
    rw [List.length_map]
    field_simp
    ring

/-- `COUNT(DISTINCT ·)` of a column of the second joined table sees each value. -/
theorem countDistinct_over_product_mid {A B C D : Type} (U : List A) (Q : List B)
    (P : List C) (S : List D) (f : C → ℕ) (hU : U ≠ []) (hQ : Q ≠ []) (hS : S ≠ []) :
    countDistinct ((((U ×ˢ Q) ×ˢ nullPad P) ×ˢ S).map fun r => r.1.2.map f)
      = (P.map f).toFinset.card := by
  apply countDistinct_eq_card
  intro x
  rw [← some_mem_map_nullPad]
  simp only [List.mem_map, Prod.exists, List.mem_product]
  obtain ⟨u, hu⟩ := List.exists_mem_of_ne_nil U hU
  obtain ⟨q, hq⟩ := List.exists_mem_of_ne_nil Q hQ
  obtain ⟨d, hd⟩ := List.exists_mem_of_ne_nil S hS
  constructor
  · rintro ⟨_, _, o, _, ⟨⟨_, ho⟩, _⟩, h⟩
    exact ⟨o, ho, h⟩
  · rintro ⟨o, ho, h⟩
    exact ⟨u, q, o, d, ⟨⟨⟨hu, hq⟩, ho⟩, hd⟩, h⟩

/-- `COUNT(DISTINCT ·)` of a column of the last joined table sees each value. -/
theorem countDistinct_over_product_last {X D : Type} (rows : List X) (S : List D)
    (f : D → ℕ) (hX : rows ≠ []) :
    countDistinct ((rows ×ˢ nullPad S).map fun r => r.2.map f) = (S.map f).toFinset.card := by
  apply countDistinct_eq_card
  intro x
  rw [← some_mem_map_nullPad]
  simp only [List.mem_map, Prod.exists, List.mem_product]
  obtain ⟨r, hr⟩ := List.exists_mem_of_ne_nil rows hX
  constructor
  · rintro ⟨_, o, ⟨_, ho⟩, h⟩
    exact ⟨o, ho, h⟩
  · rintro ⟨o, ho, h⟩
    exact ⟨r, o, ⟨hr, ho⟩, h⟩

theorem product_ne_nil {α β : Type} {X : List α} {Y : List β} (hX : X ≠ []) (hY : Y ≠ []) :
    X ×ˢ Y ≠ [] := by
  intro h
  have := congrArg List.length h
  rw [List.length_product] at this
  simp only [List.length_nil, mul_eq_zero, List.length_eq_zero] at this
  rcases this with h | h
  · exact hX h
  · exact hY h

/-- The rows the aggregation query groups for one user: a product of the user's rows of
`users` with the null-padded rows of the three progress tables. -/
theorem statsJoin_filter (s : Store) (userId : ℕ) :
    (statsJoin s).filter (fun r => decide (r.1.1.1.id = userId))
      = (((s.users.filter fun u => decide (u.id = userId))
          ×ˢ nullPad (s.user_quiz_scores.filter fun q => decide (q.user_id = userId)))
          ×ˢ nullPad (s.user_lesson_progress.filter fun r =>
              decide (r.user_id = userId) && decide (r.completed = 1)))
          ×ˢ nullPad (s.user_progress.filter fun r => decide (r.user_id = userId)) := by
  have h3 := leftJoin_filter_fst
    (leftJoin
      (leftJoin s.users s.user_quiz_scores fun u uqs => decide (u.id = uqs.user_id))
      s.user_lesson_progress
      fun r ulp => decide (r.1.id = ulp.user_id) && decide (ulp.completed = 1))
    s.user_progress (fun r up => decide (r.1.1.id = up.user_id))
    (fun r => decide (r.1.1.id = userId))
  have h2 := leftJoin_filter_fst
    (leftJoin s.users s.user_quiz_scores fun u uqs => decide (u.id = uqs.user_id))
    s.user_lesson_progress
    (fun r ulp => decide (r.1.id = ulp.user_id) && decide (ulp.completed = 1))
    (fun r => decide (r.1.id = userId))
  have h1 := leftJoin_filter_fst s.users s.user_quiz_scores
    (fun u uqs => decide (u.id = uqs.user_id)) (fun u => decide (u.id = userId))
  have hU : ∀ u ∈ s.users.filter (fun u => decide (u.id = userId)), u.id = userId := by
    intro u hu
    simpa using (List.mem_filter.mp hu).2
  have e1 := leftJoin_uniform (s.users.filter fun u => decide (u.id = userId))
    s.user_quiz_scores (fun u uqs => decide (u.id = uqs.user_id))
    (s.user_quiz_scores.filter fun q => decide (q.user_id = userId))
    (by
      intro u hu
      apply List.filter_congr
      intro q _
      have hid := hU u hu
      simp [hid, eq_comm])
  have e2 := leftJoin_uniform
    ((s.users.filter fun u => decide (u.id = userId))
      ×ˢ nullPad (s.user_quiz_scores.filter fun q => decide (q.user_id = userId)))
    s.user_lesson_progress
    (fun r ulp => decide (r.1.id = ulp.user_id) && decide (ulp.completed = 1))
    (s.user_lesson_progress.filter fun r =>
      decide (r.user_id = userId) && decide (r.completed = 1))
    (by
      rintro ⟨u, o⟩ hr
      apply List.filter_congr
      intro p _
      have hid := hU u (List.mem_product.mp hr).1
      simp [hid, eq_comm])
  have e3 := leftJoin_uniform
    (((s.users.filter fun u => decide (u.id = userId))
      ×ˢ nullPad (s.user_quiz_scores.filter fun q => decide (q.user_id = userId)))
      ×ˢ nullPad (s.user_lesson_progress.filter fun r =>
          decide (r.user_id = userId) && decide (r.completed = 1)))
    s.user_progress (fun r up => decide (r.1.1.id = up.user_id))
    (s.user_progress.filter fun r => decide (r.user_id = userId))
    (by
      rintro ⟨⟨u, o⟩, o'⟩ hr
      apply List.filter_congr
      intro p _
      have hid := hU u (List.mem_product.mp (List.mem_product.mp hr).1).1
      simp [hid, eq_comm])
  unfold statsJoin
  rw [h3, h2, h1, e1, e2, e3]

theorem statsQuery_of_userExists (s : Store) (userId : ℕ) (h : userExists s userId) :
    statsQuery s userId = aggregatedStats s userId := by
  have hU : (s.users.filter fun u => decide (u.id = userId)) ≠ [] := by
    obtain ⟨u, hu, hid⟩ := h
    exact List.ne_nil_of_mem (List.mem_filter.mpr ⟨hu, by simpa using hid⟩)
  unfold statsQuery aggregatedStats
  simp only [statsJoin_filter]
  congr 1
  · exact sqlAvg_over_product _ _ _ _ _ hU (nullPad_ne_nil _) (nullPad_ne_nil _)
  · exact countDistinct_over_product_mid _ _ _ _ _ hU (nullPad_ne_nil _) (nullPad_ne_nil _)
  · exact countDistinct_over_product_last _ _ _
      (product_ne_nil (product_ne_nil hU (nullPad_ne_nil _)) (nullPad_ne_nil _))

theorem aggregatedStats_of_hasNoRecords (s : Store) (userId : ℕ) (h : hasNoRecords s userId) :
    aggregatedStats s userId = ⟨none, 0, 0⟩ := by
  obtain ⟨hq, hl, hp⟩ := h
  have e1 : quizScoresOf s userId = [] := by
    unfold quizScoresOf
    rw [List.map_eq_nil_iff, List.filter_eq_nil_iff]
    intro q hmem
    simpa using hq q hmem
  have e2 : completedLessonIds s userId = [] := by
    unfold completedLessonIds
    rw [List.map_eq_nil_iff, List.filter_eq_nil_iff]
    intro r hmem
    simp [hl r hmem]
  have e3 : attemptedScenarioIds s userId = [] := by
    unfold attemptedScenarioIds
    rw [List.map_eq_nil_iff, List.filter_eq_nil_iff]
    intro r hmem
    simpa using hp r hmem
  simp [aggregatedStats, e1, e2, e3, meanScore]

theorem statsQuery_of_not_userExists (s : Store) (userId : ℕ) (h : ¬ userExists s userId) :
    statsQuery s userId = ⟨none, 0, 0⟩ := by
  have hU : (s.users.filter fun u => decide (u.id = userId)) = [] := by
    rw [List.filter_eq_nil_iff]
    intro u hu
    simp only [decide_eq_true_eq]
    exact fun e => h ⟨u, hu, e⟩
  unfold statsQuery
  simp only [statsJoin_filter, hU, List.nil_product]
  simp [sqlAvg, countDistinct]

theorem statsQuery_eq_of_known (s : Store) (userId : ℕ)
    (h : userExists s userId ∨ hasNoRecords s userId) :
    statsQuery s userId = aggregatedStats s userId := by
  by_cases hu : userExists s userId
  · exact statsQuery_of_userExists s userId hu
  · rcases h with h | h
    · exact absurd h hu
    · rw [statsQuery_of_not_userExists s userId hu, aggregatedStats_of_hasNoRecords s userId h]

theorem known_of_recordsReferenceUsers (s : Store) (h : recordsReferenceUsers s) (userId : ℕ) :
    userExists s userId ∨ hasNoRecords s userId := by
  by_cases hu : userExists s userId
  · exact Or.inl hu
  · refine Or.inr ⟨fun q hq e => hu ?_, fun r hr e => hu ?_, fun r hr e => hu ?_⟩
    · exact e ▸ h.1 q hq
    · exact e ▸ h.2.1 r hr
    · exact e ▸ h.2.2 r hr

/-- C9 (counterexample): in `orphanStore` the id `99` has a quiz score of `100`, a completed
lesson and a scenario record but no row in `users`.  The aggregation query starts from
`users`, so it sees none of them and returns `(null, 0, 0)`, while the mean of the quiz
scores of id `99` is `100` and the distinct counts are `1` and `1`. -/
theorem statsQuery_orphan_records :
    ¬ userExists orphanStore 99 ∧
    statsQuery orphanStore 99 = ⟨none, 0, 0⟩ ∧
    meanScore (quizScoresOf orphanStore 99) = some 100 ∧
    (completedLessonIds orphanStore 99).toFinset.card = 1 ∧
    (attemptedScenarioIds orphanStore 99).toFinset.card = 1 ∧
    (statsQuery orphanStore 99).avg_quiz_score ≠ meanScore (quizScoresOf orphanStore 99) := by
  refine ⟨?_, by decide!, by decide!, by decide!, by decide!, by decide!⟩
  simp [userExists, orphanStore]

/-- C9 (amended): for every store and every user id that has a row in `users` or has no
record at all, the row of the three-way `LEFT JOIN` aggregation has `avg_quiz_score` equal
to the arithmetic mean of the user's quiz scores (null when there are none),
`completed_lessons` equal to the number of distinct lesson ids among the user's rows with
`completed = 1`, and `completed_scenarios` equal to the number of distinct scenario ids
among the user's progress rows: the row multiplication of the joins changes neither the
average nor the counts.  A user without records gets `(null, 0, 0)`, which the leveling
function reads as `(0, 0, 0)`; an id without a row in `users` gets `(null, 0, 0)` whatever
records carry that id. -/
theorem statsQuery_eq_aggregatedStats (s : Store) (userId : ℕ) :
    (userExists s userId ∨ hasNoRecords s userId →
      (statsQuery s userId).avg_quiz_score = meanScore (quizScoresOf s userId) ∧
      (statsQuery s userId).completed_lessons = (completedLessonIds s userId).toFinset.card ∧
      (statsQuery s userId).completed_scenarios
        = (attemptedScenarioIds s userId).toFinset.card) ∧
    (hasNoRecords s userId →
      statsQuery s userId = ⟨none, 0, 0⟩ ∧
        toNumber (statsQuery s userId).avg_quiz_score = 0) ∧
    (¬ userExists s userId → statsQuery s userId = ⟨none, 0, 0⟩) := by
  refine ⟨fun hk => ?_, fun hn => ?_, statsQuery_of_not_userExists s userId⟩
  · have h := statsQuery_eq_of_known s userId hk
    exact ⟨by rw [h, aggregatedStats], by rw [h, aggregatedStats], by rw [h, aggregatedStats]⟩
  · rw [statsQuery_eq_of_known s userId (Or.inr hn),
      aggregatedStats_of_hasNoRecords s userId hn]
    exact ⟨rfl, rfl⟩

/-- C9 (witness): in `advancedStore` user `1` has a row in `users`, the join yields
`2 * 5 * 5` rows for that user, and the aggregation row is still `(100, 5, 5)`. -/
theorem statsQuery_eq_aggregatedStats_witness :
    userExists advancedStore 1 ∧
    ((statsJoin advancedStore).filter fun r => decide (r.1.1.1.id = 1)).length = 50 ∧
    (statsQuery advancedStore 1).avg_quiz_score = meanScore (quizScoresOf advancedStore 1) ∧
    (statsQuery advancedStore 1).completed_lessons
      = (completedLessonIds advancedStore 1).toFinset.card ∧
    statsQuery advancedStore 1 = ⟨some 100, 5, 5⟩ := by
  have hu : userExists advancedStore 1 := by
    simp [userExists, advancedStore]
  have h := (statsQuery_eq_aggregatedStats advancedStore 1).1 (Or.inl hu)
  exact ⟨hu, by decide!, h.1, h.2.1, by decide!⟩

/-! ### `GET /user-profile` -/

theorem sqlAvg_map_some (scores : List ℚ) :
    sqlAvg (scores.map some) = meanScore scores := by
  have hred : (scores.map some).reduceOption = scores := by
    induction scores with
    | nil => rfl
    | cons x xs ih => rw [List.map_cons, List.reduceOption_cons_of_some, ih]
  unfold sqlAvg meanScore
  simp only [hred, List.isEmpty_iff]

/-- C10 (failing input): `GET /user-profile` counts rows, not distinct ids.  For every
store the profile's `completedLessons` and `completedScenarios` are the numbers of the
user's rows, and `averageQuizScore` is the mean quiz score read as `0` when null.  In
`replayStore` user `1` has two `user_progress` rows for scenario `7`: the profile reports
`completedScenarios = 2`, while the aggregation query of `GET /recommendations` and the
specification's `AggregatedStats` give `1`. -/
theorem getUserProfile_counts_rows :
    (∀ (s : Store) (userId : ℕ), (getUserProfile s userId).progress
      = ⟨(completedLessonIds s userId).length, (attemptedScenarioIds s userId).length,
          (meanScore (quizScoresOf s userId)).getD 0⟩) ∧
    recordsReferenceUsers replayStore ∧
    (getUserProfile replayStore 1).progress = ⟨1, 2, 85⟩ ∧
    statsQuery replayStore 1 = ⟨some 85, 1, 1⟩ ∧
    aggregatedStats replayStore 1 = ⟨some 85, 1, 1⟩ := by
  refine ⟨fun s userId => ?_, ?_, by decide!, by decide!, by decide!⟩
  · simp only [getUserProfile, completedLessonIds, attemptedScenarioIds, quizScoresOf,
      List.length_map, ← sqlAvg_map_some, List.map_map, Function.comp_def]
  · simp [recordsReferenceUsers, userExists, replayStore]

/-! ### Eligibility against the level count -/

theorem statsQuery_onlyCompleted (s : Store) (userId : ℕ) :
    statsQuery (onlyCompleted s) userId = statsQuery s userId := by
  have hf : ((s.user_lesson_progress.filter fun r => decide (r.completed = 1)).filter fun r =>
      decide (r.user_id = userId) && decide (r.completed = 1))
      = s.user_lesson_progress.filter fun r =>
        decide (r.user_id = userId) && decide (r.completed = 1) := by
    rw [List.filter_filter]
    apply List.filter_congr
    intro r _
    cases decide (r.user_id = userId) <;> cases decide (r.completed = 1) <;> rfl
  unfold statsQuery
  simp only [statsJoin_filter, onlyCompleted, hf]

/-- C11: the lesson query and the level count read `user_lesson_progress` differently.  A
lesson for which the user has any row, whatever its `completed` value, is never in
`recommendedLessons`; the statistics row, and so the level, depends only on the rows with
`completed = 1` (removing the others changes nothing, and for an existing user
`completed_lessons` is the number of distinct lesson ids among the `completed = 1` rows).
In `startedStore` lesson `2` has only a `completed = 0` row of user `1`, its difficulty `1`
is at most `level + 1`, only one lesson is returned, and lesson `2` is not among them. -/
theorem lesson_filter_ignores_completed :
    (∀ (s : Store) (userId : ℕ) (l : Lesson), hasLessonRecord s userId l →
      l ∉ (getRecommendations s userId).recommendedLessons) ∧
    (∀ (s : Store) (userId : ℕ),
      statsQuery (onlyCompleted s) userId = statsQuery s userId ∧
      userLevel (onlyCompleted s) userId = userLevel s userId) ∧
    (∀ (s : Store) (userId : ℕ), userExists s userId →
      (statsQuery s userId).completed_lessons = (completedLessonIds s userId).toFinset.card) ∧
    (∃ (s : Store) (userId : ℕ) (l : Lesson),
      l ∈ s.lessons ∧
      (∃ r ∈ s.user_lesson_progress, r.lesson_id = l.id ∧ r.user_id = userId ∧ r.completed = 0) ∧
      ¬ lessonCompleted s userId l ∧
      (statsQuery s userId).completed_lessons = 0 ∧
      difficultyAtMost l.difficulty (userLevel s userId + 1) ∧
      (s.lessons.filter fun x => decide (x ≠ l)).length < 3 ∧
      (getRecommendations s userId).recommendedLessons.length < 3 ∧
      l ∉ (getRecommendations s userId).recommendedLessons) := by
  refine ⟨fun s userId l hrec hmem => (mem_recommendedLessons hmem).2.1 hrec,
    fun s userId => ⟨statsQuery_onlyCompleted s userId, ?_⟩, fun s userId hu => ?_, ?_⟩
  · unfold userLevel
    rw [statsQuery_onlyCompleted]
  · rw [statsQuery_of_userExists s userId hu, aggregatedStats]
  · have hlevel : userLevel startedStore 1 = 0 := by decide!
    refine ⟨startedStore, 1, ⟨2, "basics", some 1⟩, by simp [startedStore],
      ⟨⟨1, 1, 2, 0⟩, by simp [startedStore], rfl, rfl, rfl⟩, ?_, by decide!, ?_, by decide,
      by decide!, by decide!⟩
    · simp [lessonCompleted, startedStore]
    · rw [hlevel]
      exact ⟨1, rfl, by norm_num⟩

/-- C11 (witness): in `startedStore` user `1` has a row for lesson `2`, and lesson `2` is
not recommended although the only returned lesson is lesson `1`. -/
theorem lesson_filter_ignores_completed_witness :
    hasLessonRecord startedStore 1 ⟨2, "basics", some 1⟩ ∧
    (getRecommendations startedStore 1).recommendedLessons = [⟨1, "intro", some 0⟩] ∧
    (⟨2, "basics", some 1⟩ : Lesson) ∉ (getRecommendations startedStore 1).recommendedLessons :=
  have hrec : hasLessonRecord startedStore 1 ⟨2, "basics", some 1⟩ :=
    ⟨⟨1, 1, 2, 0⟩, by simp [startedStore], rfl, rfl⟩
  ⟨hrec, by decide!, lesson_filter_ignores_completed.1 startedStore 1 _ hrec⟩

end ITS
